import Mathlib

/-!
Verification of the generic action engine of the repository
(`src/openslides_backend/action/generics.py`): the create, update and delete
dataset preparers and their write-request assemblers.

The embedding below translates the Python source into Lean:

* Python dictionaries become association lists (`alookup` / `aset` keep the
  first-match / in-place-replace semantics of `dict`).
* The fallible pipeline becomes `Except ActionErr`; a raised
  `ActionException` / `TypeError` / datastore `NotFound` is an `Except.error`
  value, so an error aborts the whole batch and yields no write request,
  exactly as an uncaught Python exception would.
* Pieces of the repository that are imported by `generics.py` but whose
  source files are not under `src/` (the base `Action` class with
  `perform`/`create_write_request_elements`, `merge_write_request_elements`,
  the relation resolver and the model/field catalog) are modelled from the
  specification; each such definition carries a doc comment starting with
  `Modelled from the spec:`.
* The recursive cascade (`delete_action.perform` inside
  `delete_action_prepare_dataset`) is unbounded recursion in Python; here it
  takes a fuel parameter bounding the cascade depth.  Exhausted fuel is the
  modelling of non-termination and surfaces as the artificial error
  `ActionErr.outOfFuel`.
-/

namespace OSB

/-- `FullQualifiedId` from `shared/patterns.py`: a collection name paired with
a numeric id. -/
structure FullQualifiedId where
  collection : String
  id : Int
deriving DecidableEq

/-- The JSON-like values stored in instances and the datastore.  `fqidV` is
the value form a generic relation field carries (a fully qualified id). -/
inductive Value where
  | null
  | int (n : Int)
  | str (s : String)
  | fqidV (q : FullQualifiedId)
  | list (xs : List Value)

/-- An instance (Python `Dict[str, Any]`) as an association list in key
insertion order. -/
abbrev Instance := List (String × Value)

/-- First-match association lookup: `d.get(k)` / `d[k]` on a Python dict with
unique keys. -/
def alookup {κ α : Type} [DecidableEq κ] (k : κ) : List (κ × α) → Option α
  | [] => none
  | (k', v) :: rest => if k' = k then some v else alookup k rest

/-- Python `d[k] = v`: replace the binding in place if the key is present,
otherwise append it (dict insertion order). -/
def aset {κ α : Type} [DecidableEq κ] (k : κ) (v : α) : List (κ × α) → List (κ × α)
  | [] => [(k, v)]
  | (k', v') :: rest => if k' = k then (k, v) :: rest else (k', v') :: aset k v rest

/-- Python `d.get(k)`: a missing key and a key bound to `None` both read as
`None`. -/
def pyGet (inst : Instance) (k : String) : Value :=
  (alookup k inst).getD Value.null

/-- Python truthiness of a value, as used by `if db_instance.get(field_name):`
in the PROTECT check (`None`, `0`, `""` and `[]` are falsy). -/
def truthy : Value → Bool
  | Value.null => false
  | Value.int n => n != 0
  | Value.str s => !s.isEmpty
  | Value.fqidV _ => true
  | Value.list xs => !xs.isEmpty

/-- `OnDelete` from `models/fields.py` (its three members are the ones
`generics.py` dispatches on). -/
inductive OnDelete where
  | PROTECT
  | CASCADE
  | SET_NULL
deriving DecidableEq

/-- Modelled from the spec: the relation-field metadata of `models/fields.py`
(not under `src/`): target collection(s) `to` (a singleton list for
non-generic fields), whether the field is a `BaseGenericRelationField`, the
`on_delete` policy, the optional `structured_relation` lookup path, the
optional `structured_tag`, the declared `default`, the reverse field name
`related_name`, and whether the field is a relation field at all
(`get_relation_fields` yields only those). -/
structure Field where
  «to» : List String
  isGeneric : Bool
  on_delete : OnDelete
  structured_relation : Option (List String)
  structured_tag : Option String
  default : Option Value
  related_name : String
  isRelationField : Bool

/-- Python truthiness of `field.structured_relation` (a list or `None`). -/
def optListTruthy : Option (List String) → Bool
  | some (_ :: _) => true
  | _ => false

/-- Python truthiness of `field.structured_tag` (a string or `None`). -/
def optStrTruthy : Option String → Bool
  | some s => !s.isEmpty
  | none => false

/-- The delete preparer's skip condition
`if field.structured_relation or field.structured_tag` (generics.py:229). -/
def structuredSkip (f : Field) : Bool :=
  optListTruthy f.structured_relation || optStrTruthy f.structured_tag

/-- Modelled from the spec: a model (`models/base.py`, not under `src/`) is a
collection name plus its field catalog; `get_fields` yields all fields,
`get_relation_fields` the relation ones. -/
structure Model where
  collection : String
  fields : List (String × Field)

def Model.get_fields (m : Model) : List (String × Field) := m.fields

def Model.get_relation_fields (m : Model) : List (String × Field) :=
  m.fields.filter (fun p => p.2.isRelationField)

/-- An `Event` from `shared/interfaces.py`: type string (`"create"`,
`"update"` or `"delete"`), target fqid, and an optional field payload (the
delete event is built without a `fields` entry). -/
structure Event where
  type : String
  fqid : FullQualifiedId
  fields : Option Instance

/-- A `WriteRequestElement` from `shared/interfaces.py`: ordered events, the
audit-information map from fqid to strings, and the acting user. -/
structure WriteRequestElement where
  events : List Event
  information : List (FullQualifiedId × List String)
  user_id : Int

/-- Modelled from the spec: the Relation Resolver's output (§3 "Relation
Mutation"): a reverse-side mutation of one related object — the target fqid,
the (possibly templated) reverse field key, the operation (`"add"` or
`"remove"`) and the single modified element. -/
structure RelationMutation where
  fqid : FullQualifiedId
  fieldKey : String
  op : String
  modified_element : Value

/-- The errors the pipeline can raise.  Each constructor corresponds to one
exception site of the source; the constructors carry the data interpolated
into the exception message:
* `typeError msg` — the `TypeError` raised for a payload instance without an
  integer id (generics.py:130-133), and for a malformed delete id;
* `createStructured` — `ActionException` "You must give both a relation field
  with structured_relation and its corresponding foreign key field."
  (generics.py:42-46);
* `updateStructured` — `ActionException` "You must not try to update both a
  relation field with structured_relation and its corresponding foreign key
  field." (generics.py:141-145);
* `protect c i to` — `ActionException` "You can not delete {c} with id {i},
  because you have to delete the related {to} first." (generics.py:241-244);
* `cascadeNotFound c` — `ActionException` "Can't cascade the delete action to
  {c} since no delete action was found." (generics.py:261-264);
* `notFound q` — the datastore's NotFound for a missing object (spec §6);
* `keyError k` — Python `KeyError` on `instance["id"]` for a delete payload
  without an id;
* `outOfFuel` — modelling artifact: the cascade recursion exceeded the fuel
  bound (the Python source recurses without bound). -/
inductive ActionErr where
  | typeError (msg : String)
  | createStructured
  | updateStructured
  | protect (collection : String) (id : Int) («to» : List String)
  | cascadeNotFound (collection : String)
  | notFound (q : FullQualifiedId)
  | keyError (k : String)
  | outOfFuel

/-- The external collaborators (spec §6): the datastore contents, the
registered delete actions (`actions_map`, keyed by `"collection.delete"`,
each entry carrying the registered action's model), and the id-reservation
counter base per collection. -/
structure Env where
  db : List (FullQualifiedId × Instance)
  actions_map : List (String × Model)
  reserveStart : String → Int

/-- Modelled from the spec: the storage read
`get(fqid, fields, lockResult) → mapping; fails with NotFound if the object
does not exist` (spec §6), restricted to the requested `mapped_fields`.  The
`lock_result` flag is the locking-read marker the delete preparer passes as
`True`; locking itself is a cross-batch storage concern (spec §5) with no
effect on the returned mapping. -/
def database_get (db : List (FullQualifiedId × Instance)) (fqid : FullQualifiedId)
    (mapped_fields : List String) (lock_result : Bool) : Except ActionErr Instance :=
  match alookup fqid db with
  | none => Except.error (ActionErr.notFound fqid)
  | some obj => Except.ok (mapped_fields.filterMap (fun k => (alookup k obj).map (fun v => (k, v))))

/-- The stored instance of an fqid, `{}` when absent (used to phrase theorem
hypotheses about stored values). -/
def dbInstanceOf (db : List (FullQualifiedId × Instance)) (q : FullQualifiedId) : Instance :=
  (alookup q db).getD []

/-- Modelled from the spec: id reservation
`reserveId(collection) → integer, monotonically unique per collection`
(spec §6).  The reservation state counts reservations per collection; the
k-th reserved id of a collection is `reserveStart collection + k`. -/
abbrev ResState := List (String × Nat)

def reserve_id (env : Env) (collection : String) (s : ResState) : Int × ResState :=
  let n := (alookup collection s).getD 0
  (env.reserveStart collection + Int.ofNat n, aset collection (n + 1) s)

/-- List concatenation of the images of `f` (a Python generator's
`yield from` / list flattening). -/
def concatMap {α β : Type} (f : α → List β) : List α → List β
  | [] => []
  | x :: xs => f x ++ concatMap f xs

/-- The targets named by one element of a relation-field value: an `int` id
is paired with the field's static `to`, a fully qualified value carries its
own collection (generic fields). -/
def elemTargets (f : Field) : Value → List FullQualifiedId
  | Value.int n => [⟨f.«to».headD "", n⟩]
  | Value.fqidV q => [q]
  | _ => []

/-- All targets named by a relation-field value (a list value names each of
its elements, a plain value names one target, `None` names none). -/
def valueTargets (f : Field) : Value → List FullQualifiedId
  | Value.list xs => concatMap (elemTargets f) xs
  | v => elemTargets f v

/-- Modelled from the spec: the Relation Resolver (§4.1; its source file
`action/relations.py` is not under `src/`).  For each relation field handed
to it, it computes the reverse-side mutations on the related objects: a
non-null forward value adds the forward id to each named target's reverse
field; a null forward value (the delete preparer's SET_NULL clearing) removes
the forward id from each target named by the value still in storage.  Only
the facets the theorems rely on are modelled: one mutation per affected
target, each carrying the single modified element (§4.1 item 4), and nothing
but reverse-side updates; structured-tag key rendering is not spelled out. -/
def get_relations (env : Env) (model : Model) (id : Int) (obj : Instance)
    (relation_fields : List (String × Field)) (shortcut : Bool) : List RelationMutation :=
  concatMap (fun p =>
    match pyGet obj p.1 with
    | Value.null =>
        (valueTargets p.2 (pyGet (dbInstanceOf env.db ⟨model.collection, id⟩) p.1)).map
          (fun t => { fqid := t, fieldKey := p.2.related_name, op := "remove",
                      modified_element := Value.int id })
    | v =>
        (valueTargets p.2 v).map
          (fun t => { fqid := t, fieldKey := p.2.related_name, op := "add",
                      modified_element := Value.int id })) relation_fields

/-- Modelled from the spec: the write-request element a single relation
mutation turns into inside the base assembler — one update event on the
target object (spec §2 data flow, §4.5). -/
def relation_write_request_element (user_id : Int) (m : RelationMutation) : WriteRequestElement :=
  { events := [{ type := "update", fqid := m.fqid, fields := some [(m.fieldKey, m.modified_element)] }]
  , information := [(m.fqid, ["Object updated"])]
  , user_id := user_id }

/-- Insert one incoming information entry, concatenating the string lists of
equal fqids (spec §4.5: "unions information maps by FQID, string lists
concatenated, duplicates allowed"). -/
def info_insert (q : FullQualifiedId) (ss : List String) :
    List (FullQualifiedId × List String) → List (FullQualifiedId × List String)
  | [] => [(q, ss)]
  | (q', ss') :: rest => if q' = q then (q', ss' ++ ss) :: rest else (q', ss') :: info_insert q ss rest

def info_union (acc : List (FullQualifiedId × List String))
    (incoming : List (FullQualifiedId × List String)) : List (FullQualifiedId × List String) :=
  incoming.foldl (fun a p => info_insert p.1 p.2 a) acc

/-- Modelled from the spec: `merge_write_request_elements` from `action/base.py`
(not under `src/`), spec §4.5: one element whose event list is the
concatenation of the inputs' event lists in order, whose information map is
the fqid-wise union with string lists concatenated, and whose user id is the
common user id of the inputs (that all inputs carry the same user id is a
programming-error assertion in the source, so the first one is taken; every
call site below passes elements of a single acting user). -/
def merge_write_request_elements (els : List WriteRequestElement) : WriteRequestElement :=
  { events := concatMap (fun w => w.events) els
  , information := els.foldl (fun a w => info_union a w.information) []
  , user_id := (els.head?.map (fun w => w.user_id)).getD 0 }

/-- Python string `<` as `sorted` uses it: lexicographic comparison by code
point. -/
def pyStrLtChars : List Char → List Char → Bool
  | [], [] => false
  | [], _ :: _ => true
  | _ :: _, [] => false
  | a :: as, b :: bs =>
      if a.toNat < b.toNat then true
      else if b.toNat < a.toNat then false
      else pyStrLtChars as bs

def pyStrLt (a b : String) : Bool := pyStrLtChars a.data b.data

/-- One insertion step of a stable descending sort by event type: the new
event `e` (earlier in arrival order than the already sorted `ys`) is placed
before the first element whose key is not greater than `e`'s, exactly the
placement `sorted(events, key=lambda event: event["type"], reverse=True)`
gives (Python's sort is stable; `reverse=True` reverses comparisons, not the
order of equal elements). -/
def insertEventDesc (e : Event) : List Event → List Event
  | [] => [e]
  | y :: ys => if pyStrLt e.type y.type then y :: insertEventDesc e ys else e :: y :: ys

/-- `sorted(events, key=lambda event: event["type"], reverse=True)`
(generics.py:302-306) as a stable insertion sort. -/
def sortEventsDesc : List Event → List Event
  | [] => []
  | e :: es => insertEventDesc e (sortEventsDesc es)

/-! ## CreateAction (generics.py:11-102) -/

/-- The loop body of `set_defaults` (generics.py:68-70):
`if field_name not in instance.keys() and field.default is not None:
instance[field_name] = field.default`. -/
def apply_default (i : Instance) (p : String × Field) : Instance :=
  match alookup p.1 i, p.2.default with
  | none, some d => aset p.1 d i
  | _, _ => i

/-- `CreateAction.set_defaults` (generics.py:67-71): every model field with a
declared default that is absent from the instance is bound to its default. -/
def set_defaults (model : Model) (inst : Instance) : Instance :=
  model.get_fields.foldl apply_default inst

/-- The relation-field collection loop of `create_action_prepare_dataset`
(generics.py:37-47): collect the relation fields present on the instance; a
structured-relation field whose companion foreign-key field
(`structured_relation[0]`) reads as `None` aborts with the
`createStructured` integrity error. -/
def createCollectRelationFields (inst : Instance) :
    List (String × Field) → Except ActionErr (List (String × Field))
  | [] => Except.ok []
  | (field_name, field) :: rest =>
      if (alookup field_name inst).isSome then
        if optListTruthy field.structured_relation then
          match pyGet inst ((field.structured_relation.getD []).headD "") with
          | Value.null => Except.error ActionErr.createStructured
          | _ =>
            match createCollectRelationFields inst rest with
            | Except.error e => Except.error e
            | Except.ok r => Except.ok ((field_name, field) :: r)
        else
          match createCollectRelationFields inst rest with
          | Except.error e => Except.error e
          | Except.ok r => Except.ok ((field_name, field) :: r)
      else createCollectRelationFields inst rest

/-- One dataset element of the create preparer (`{"instance": …, "new_id": …,
"relations": …}`, generics.py:61-63). -/
structure CreateElement where
  instance_ : Instance
  new_id : Int
  relations : List RelationMutation

/-- The per-instance body of `create_action_prepare_dataset`
(generics.py:30-63): apply defaults (`validate_fields` and `update_instance`
are identity in the generic action), collect relation fields, reserve a new
id, resolve relations with `shortcut=True`.  The reservation state is
threaded explicitly; an error leaves it untouched, since the error is raised
before `reserve_id` is called. -/
def create_action_prepare_instance (env : Env) (model : Model) (inst0 : Instance)
    (s : ResState) : ResState × Except ActionErr CreateElement :=
  let inst1 := set_defaults model inst0
  match createCollectRelationFields inst1 model.get_relation_fields with
  | Except.error e => (s, Except.error e)
  | Except.ok relation_fields =>
      let r := reserve_id env model.collection s
      (r.2, Except.ok { instance_ := inst1, new_id := r.1,
                        relations := get_relations env model r.1 inst1 relation_fields true })

/-- The batch loop of `create_action_prepare_dataset` (generics.py:29-65):
instances in payload order; the first exception aborts the batch. -/
def create_prepare_go (env : Env) (model : Model) :
    List Instance → ResState → ResState × Except ActionErr (List CreateElement)
  | [], s => (s, Except.ok [])
  | inst :: rest, s =>
      match create_action_prepare_instance env model inst s with
      | (s', Except.error e) => (s', Except.error e)
      | (s', Except.ok elem) =>
          match create_prepare_go env model rest s' with
          | (s'', Except.error e) => (s'', Except.error e)
          | (s'', Except.ok elems) => (s'', Except.ok (elem :: elems))

def create_action_prepare_dataset (env : Env) (model : Model) (payload : List Instance)
    (s : ResState) : ResState × Except ActionErr (List CreateElement) :=
  create_prepare_go env model payload s

/-- `create_action_create_instance_write_request_element` (generics.py:88-102):
one create event at the new id carrying the full instance, audit information
`{fqid: ["Object created"]}`, the acting user. -/
def create_action_create_instance_write_request_element (model : Model) (user_id : Int)
    (element : CreateElement) : WriteRequestElement :=
  let fqid : FullQualifiedId := ⟨model.collection, element.new_id⟩
  { events := [{ type := "create", fqid := fqid, fields := some element.instance_ }]
  , information := [(fqid, ["Object created"])]
  , user_id := user_id }

/-- Modelled from the spec: the base `Action.create_write_request_elements`
(`action/base.py`, not under `src/`) iterated by the create assembler
(generics.py:73-81): per dataset element, the instance element followed by
one reverse-relation update element per relation mutation (spec §2 data flow,
§4.5, §6 batch result). -/
def create_base_write_request_elements (model : Model) (user_id : Int)
    (data : List CreateElement) : List WriteRequestElement :=
  concatMap (fun e =>
    create_action_create_instance_write_request_element model user_id e
      :: e.relations.map (relation_write_request_element user_id)) data

/-- The create action end to end: prepare the dataset, then assemble the
write-request elements (the base `perform` orchestration, spec §2). -/
def create_perform (env : Env) (model : Model) (payload : List Instance) (user_id : Int)
    (s : ResState) : ResState × Except ActionErr (List WriteRequestElement) :=
  match create_action_prepare_dataset env model payload s with
  | (s', Except.error e) => (s', Except.error e)
  | (s', Except.ok data) => (s', Except.ok (create_base_write_request_elements model user_id data))

/-! ## UpdateAction (generics.py:105-190) -/

/-- The relation-field collection loop of `update_action_prepare_dataset`
(generics.py:136-146): a structured-relation field present together with a
non-`None` companion foreign-key field aborts with the `updateStructured`
integrity error. -/
def updateCollectRelationFields (inst : Instance) :
    List (String × Field) → Except ActionErr (List (String × Field))
  | [] => Except.ok []
  | (field_name, field) :: rest =>
      if (alookup field_name inst).isSome then
        if optListTruthy field.structured_relation then
          match pyGet inst ((field.structured_relation.getD []).headD "") with
          | Value.null =>
            match updateCollectRelationFields inst rest with
            | Except.error e => Except.error e
            | Except.ok r => Except.ok ((field_name, field) :: r)
          | _ => Except.error ActionErr.updateStructured
        else
          match updateCollectRelationFields inst rest with
          | Except.error e => Except.error e
          | Except.ok r => Except.ok ((field_name, field) :: r)
      else updateCollectRelationFields inst rest

/-- One dataset element of the update and delete preparers
(`{"instance": …, "relations": …}`). -/
structure InstanceElement where
  instance_ : Instance
  relations : List RelationMutation

/-- The per-instance body of `update_action_prepare_dataset`
(generics.py:123-156): `validate_fields` and `update_instance` are identity
in the generic action; the instance must carry an integer id
(generics.py:130-133); relations are resolved without the shortcut. -/
def update_action_prepare_instance (env : Env) (model : Model) (inst0 : Instance) :
    Except ActionErr InstanceElement :=
  match alookup "id" inst0 with
  | some (Value.int i) =>
      match updateCollectRelationFields inst0 model.get_relation_fields with
      | Except.error e => Except.error e
      | Except.ok relation_fields =>
          Except.ok { instance_ := inst0,
                      relations := get_relations env model i inst0 relation_fields false }
  | _ => Except.error (ActionErr.typeError "Instance of payload must contain integer id.")

def update_prepare_go (env : Env) (model : Model) :
    List Instance → Except ActionErr (List InstanceElement)
  | [] => Except.ok []
  | inst :: rest =>
      match update_action_prepare_instance env model inst with
      | Except.error e => Except.error e
      | Except.ok elem =>
          match update_prepare_go env model rest with
          | Except.error e => Except.error e
          | Except.ok elems => Except.ok (elem :: elems)

/-- The id of an instance that the preparer has already checked
(`element["instance"]["id"]`); the preparers guarantee the integer case. -/
def instanceIdOf (inst : Instance) : Int :=
  match alookup "id" inst with
  | some (Value.int n) => n
  | _ => 0

/-- `update_action_create_instance_write_request_element`
(generics.py:175-190): one update event at the instance's id whose field
payload is the instance with the key `"id"` removed
(`{k: v for k, v in element["instance"].items() if k != "id"}`), audit
information `{fqid: ["Object updated"]}`. -/
def update_action_create_instance_write_request_element (model : Model) (user_id : Int)
    (element : InstanceElement) : WriteRequestElement :=
  let fqid : FullQualifiedId := ⟨model.collection, instanceIdOf element.instance_⟩
  { events := [{ type := "update", fqid := fqid,
                 fields := some (element.instance_.filter (fun p => p.1 ≠ "id")) }]
  , information := [(fqid, ["Object updated"])]
  , user_id := user_id }

/-- Modelled from the spec: the base assembler iterated by the update
assembler (generics.py:160-168), as for create. -/
def update_base_write_request_elements (model : Model) (user_id : Int)
    (data : List InstanceElement) : List WriteRequestElement :=
  concatMap (fun e =>
    update_action_create_instance_write_request_element model user_id e
      :: e.relations.map (relation_write_request_element user_id)) data

/-- The update action end to end. -/
def update_perform (env : Env) (model : Model) (payload : List Instance) (user_id : Int) :
    Except ActionErr (List WriteRequestElement) :=
  match update_prepare_go env model payload with
  | Except.error e => Except.error e
  | Except.ok data => Except.ok (update_base_write_request_elements model user_id data)

/-! ## DeleteAction (generics.py:193-328) -/

/-- `instance["id"]` in the delete preparer: a missing key is a Python
`KeyError`; a non-integer value (which Python would thread into a malformed
fqid that the datastore rejects) is modelled as the same-site failure. -/
def deleteInstanceId (inst : Instance) : Except ActionErr Int :=
  match alookup "id" inst with
  | some (Value.int n) => Except.ok n
  | some _ => Except.error (ActionErr.typeError "id")
  | none => Except.error (ActionErr.keyError "id")

/-- The normalization of a CASCADE field's stored value to a list of target
fqids (generics.py:246-254): `db_instance.get(field_name, [])`, a non-list
value wrapped into a one-element list, generic fields keeping the embedded
fqids, non-generic fields pairing each id with the field's static `to`
(the source asserts `to` is not a list there, so the head of the singleton
is taken). -/
def cascadeFqids (field : Field) (stored : Option Value) : List FullQualifiedId :=
  let raw := stored.getD (Value.list [])
  let vals : List Value := match raw with
    | Value.list xs => xs
    | v => [v]
  if field.isGeneric then
    vals.map (fun v => match v with
      | Value.fqidV q => q
      | _ => ⟨"", 0⟩)
  else
    vals.map (fun v => ⟨field.«to».headD "", match v with
      | Value.int n => n
      | _ => 0⟩)

/-- The cascade loop over the target fqids (generics.py:256-272): look up the
registered delete action for the target's collection (`actions_map.get`,
failing with the `cascadeNotFound` configuration error when absent), invoke
it with the standard single-id payload, and extend
`additional_write_requests` with its resulting elements.  The recursive
`perform` is the `nested` parameter. -/
def cascade_list (env : Env)
    (nested : Model → List Instance → Except ActionErr (List WriteRequestElement)) :
    List FullQualifiedId → List WriteRequestElement →
    Except ActionErr (List WriteRequestElement)
  | [], addl => Except.ok addl
  | q :: qs, addl =>
      match alookup (q.collection ++ ".delete") env.actions_map with
      | none => Except.error (ActionErr.cascadeNotFound q.collection)
      | some targetModel =>
          match nested targetModel [[("id", Value.int q.id)]] with
          | Except.error e => Except.error e
          | Except.ok wrs => cascade_list env nested qs (addl ++ wrs)

/-- The relation-field loop of `delete_action_prepare_dataset`
(generics.py:227-275): structured-relation / structured-tag fields are
silently skipped; SET_NULL fields are set to `None` on the instance and
collected for reverse-relation resolution; PROTECT and CASCADE fields read
the stored value under a locking read (the source performs this read once
before dispatching on PROTECT vs CASCADE; here it appears in each of the two
branches), PROTECT failing on a truthy stored value and CASCADE recursing
into the registered delete actions of the stored targets. -/
def delete_field_loop (env : Env)
    (nested : Model → List Instance → Except ActionErr (List WriteRequestElement))
    (model : Model) (instId : Int) :
    List (String × Field) → Instance → List (String × Field) → List WriteRequestElement →
    Except ActionErr (Instance × List (String × Field) × List WriteRequestElement)
  | [], inst, rf, addl => Except.ok (inst, rf, addl)
  | (field_name, field) :: rest, inst, rf, addl =>
      if structuredSkip field then
        delete_field_loop env nested model instId rest inst rf addl
      else
        match field.on_delete with
        | OnDelete.SET_NULL =>
            delete_field_loop env nested model instId rest
              (aset field_name Value.null inst) (rf ++ [(field_name, field)]) addl
        | OnDelete.PROTECT =>
            match database_get env.db ⟨model.collection, instId⟩ [field_name] true with
            | Except.error e => Except.error e
            | Except.ok db_instance =>
                if truthy (pyGet db_instance field_name) then
                  Except.error (ActionErr.protect model.collection instId field.«to»)
                else
                  delete_field_loop env nested model instId rest inst rf addl
        | OnDelete.CASCADE =>
            match database_get env.db ⟨model.collection, instId⟩ [field_name] true with
            | Except.error e => Except.error e
            | Except.ok db_instance =>
                match cascade_list env nested (cascadeFqids field (alookup field_name db_instance)) addl with
                | Except.error e => Except.error e
                | Except.ok addl' =>
                    delete_field_loop env nested model instId rest inst rf addl'

/-- The per-instance body of `delete_action_prepare_dataset`
(generics.py:219-285): `update_instance` is identity in the generic action;
after the field loop, relations are resolved on the now-mutated instance with
exactly the collected (SET_NULL) relation fields. -/
def delete_prepare_instance (env : Env)
    (nested : Model → List Instance → Except ActionErr (List WriteRequestElement))
    (model : Model) (inst0 : Instance) (addl : List WriteRequestElement) :
    Except ActionErr (InstanceElement × List WriteRequestElement) :=
  match deleteInstanceId inst0 with
  | Except.error e => Except.error e
  | Except.ok instId =>
      match delete_field_loop env nested model instId model.get_relation_fields inst0 [] addl with
      | Except.error e => Except.error e
      | Except.ok r =>
          Except.ok ({ instance_ := r.1,
                       relations := get_relations env model instId r.1 r.2.1 false }, r.2.2)

/-- The batch loop of `delete_action_prepare_dataset` (generics.py:218-287),
threading `additional_write_requests` across the instances. -/
def delete_prepare_go (env : Env)
    (nested : Model → List Instance → Except ActionErr (List WriteRequestElement))
    (model : Model) :
    List Instance → List WriteRequestElement →
    Except ActionErr (List InstanceElement × List WriteRequestElement)
  | [], addl => Except.ok ([], addl)
  | inst :: rest, addl =>
      match delete_prepare_instance env nested model inst addl with
      | Except.error e => Except.error e
      | Except.ok r =>
          match delete_prepare_go env nested model rest r.2 with
          | Except.error e => Except.error e
          | Except.ok r2 => Except.ok (r.1 :: r2.1, r2.2)

/-- `delete_action_prepare_dataset` (generics.py:207-287): the dataset
elements plus the buffered cascade write-request elements
(`additional_write_requests`, initially empty per action instance). -/
def delete_action_prepare_dataset (env : Env)
    (nested : Model → List Instance → Except ActionErr (List WriteRequestElement))
    (model : Model) (payload : List Instance) :
    Except ActionErr (List InstanceElement × List WriteRequestElement) :=
  delete_prepare_go env nested model payload []

/-- `delete_action_create_instance_write_request_element`
(generics.py:314-328): one delete event at the instance's id with no field
payload, audit information `{fqid: ["Object deleted"]}`. -/
def delete_action_create_instance_write_request_element (model : Model) (user_id : Int)
    (element : InstanceElement) : WriteRequestElement :=
  let fqid : FullQualifiedId := ⟨model.collection, instanceIdOf element.instance_⟩
  { events := [{ type := "delete", fqid := fqid, fields := none }]
  , information := [(fqid, ["Object deleted"])]
  , user_id := user_id }

/-- Modelled from the spec: the base assembler iterated by
`super().create_write_request_elements(dataset)` inside the delete assembler
(generics.py:299), as for create and update. -/
def delete_base_write_request_elements (model : Model) (user_id : Int)
    (data : List InstanceElement) : List WriteRequestElement :=
  concatMap (fun e =>
    delete_action_create_instance_write_request_element model user_id e
      :: e.relations.map (relation_write_request_element user_id)) data

/-- `delete_action_create_write_request_elements` (generics.py:294-307): merge
the buffered cascade elements and the direct elements into a single element,
then stably sort its events by type string, descending
(`sorted(…, key=lambda event: event["type"], reverse=True)`), and return that
one element. -/
def delete_action_create_write_request_elements (model : Model) (user_id : Int)
    (addl : List WriteRequestElement) (data : List InstanceElement) :
    List WriteRequestElement :=
  let write_request_element :=
    merge_write_request_elements (addl ++ delete_base_write_request_elements model user_id data)
  [{ write_request_element with events := sortEventsDesc write_request_element.events }]

/-- The delete action's prepare-then-assemble orchestration (the base
`perform`, spec §2), parameterized by the nested perform the cascade uses. -/
def delete_perform_body (env : Env) (user_id : Int)
    (nested : Model → List Instance → Except ActionErr (List WriteRequestElement))
    (model : Model) (payload : List Instance) : Except ActionErr (List WriteRequestElement) :=
  match delete_action_prepare_dataset env nested model payload with
  | Except.error e => Except.error e
  | Except.ok r => Except.ok (delete_action_create_write_request_elements model user_id r.2 r.1)

/-- The nested delete perform at a given remaining cascade depth: at depth 0
any further cascade invocation is the modelled non-termination
(`outOfFuel`). -/
def delete_nested (env : Env) (user_id : Int) :
    Nat → Model → List Instance → Except ActionErr (List WriteRequestElement)
  | 0, _, _ => Except.error ActionErr.outOfFuel
  | fuel + 1, model, payload => delete_perform_body env user_id (delete_nested env user_id fuel) model payload

/-- The delete action end to end with cascade depth at most `fuel`. -/
def delete_perform (env : Env) (user_id : Int) (fuel : Nat) (model : Model)
    (payload : List Instance) : Except ActionErr (List WriteRequestElement) :=
  delete_perform_body env user_id (delete_nested env user_id fuel) model payload

/-! ## Association-list lemmas -/

theorem alookup_aset_self {α : Type} (k : String) (v : α) (l : List (String × α)) :
    alookup k (aset k v l) = some v := by
  induction l with
  | nil => simp [aset, alookup]
  | cons p rest ih =>
      by_cases h : p.1 = k
      · simp [aset, h, alookup]
      · simpa [aset, h, alookup] using ih

theorem alookup_aset_ne {α : Type} {k k' : String} (h : k' ≠ k) (v : α)
    (l : List (String × α)) : alookup k' (aset k v l) = alookup k' l := by
  have hk : k ≠ k' := fun hh => h hh.symm
  induction l with
  | nil => simp [aset, alookup, hk]
  | cons p rest ih =>
      by_cases hp : p.1 = k
      · subst hp
        simp [aset, alookup, hk]
      · by_cases hpk : p.1 = k'
        · simp [aset, hp, alookup, hpk, h]
        · simp [aset, hp, alookup, hpk, ih]

theorem alookup_filter_key_none (k : String) (l : Instance) :
    alookup k (l.filter (fun p => p.1 ≠ k)) = none := by
  simp only [ne_eq, decide_not]
  induction l with
  | nil => simp [alookup]
  | cons p rest ih =>
      by_cases hp : p.1 = k
      · simpa [List.filter_cons, decide_not, hp] using ih
      · simpa [List.filter_cons, decide_not, hp, alookup] using ih

theorem alookup_filter_key_ne {k k' : String} (h : k' ≠ k) (l : Instance) :
    alookup k' (l.filter (fun p => p.1 ≠ k)) = alookup k' l := by
  have hk : ¬ k = k' := fun hh => h hh.symm
  simp only [ne_eq, decide_not]
  induction l with
  | nil => simp
  | cons p rest ih =>
      by_cases hp : p.1 = k
      · have hpk : ¬ p.1 = k' := by
          rw [hp]; exact fun hh => h hh.symm
        simp [List.filter_cons, hp, alookup, hpk, hk, ih]
      · by_cases hpk : p.1 = k'
        · simp [List.filter_cons, hp, alookup, hpk, h]
        · simp [List.filter_cons, hp, alookup, hpk, ih]

/-! ## Claim theorems: per-instance write-request elements -/

/-- **C10.** For every instance processed by any of the three generic actions,
the per-instance write-request element contains exactly one event whose fqid
pairs the action's model collection with the instance's id (the newly
reserved id for create); its information map binds exactly that one fqid to a
list of exactly one audit string; its `user_id` equals the invoking user's
id; and for delete the event carries no field payload
(`create_action_create_instance_write_request_element`,
`update_action_create_instance_write_request_element`,
`delete_action_create_instance_write_request_element`,
generics.py:88-102, 175-190, 314-328). -/
theorem instance_write_request_element_shape (model : Model) (user_id : Int)
    (ec : CreateElement) (eu ed : InstanceElement) :
    (create_action_create_instance_write_request_element model user_id ec =
      { events := [{ type := "create", fqid := ⟨model.collection, ec.new_id⟩,
                     fields := some ec.instance_ }]
      , information := [(⟨model.collection, ec.new_id⟩, ["Object created"])]
      , user_id := user_id }) ∧
    (update_action_create_instance_write_request_element model user_id eu =
      { events := [{ type := "update", fqid := ⟨model.collection, instanceIdOf eu.instance_⟩,
                     fields := some (eu.instance_.filter (fun p => p.1 ≠ "id")) }]
      , information := [(⟨model.collection, instanceIdOf eu.instance_⟩, ["Object updated"])]
      , user_id := user_id }) ∧
    (delete_action_create_instance_write_request_element model user_id ed =
      { events := [{ type := "delete", fqid := ⟨model.collection, instanceIdOf ed.instance_⟩,
                     fields := none }]
      , information := [(⟨model.collection, instanceIdOf ed.instance_⟩, ["Object deleted"])]
      , user_id := user_id }) :=
  ⟨rfl, rfl, rfl⟩

/-- **C5.** For every update batch, each emitted per-instance update event's
field map never contains the key `id`, while all other keys of the normalized
instance appear unchanged
(`update_action_create_instance_write_request_element`, generics.py:175-190,
where `fields = {k: v for k, v in element["instance"].items() if k != "id"}`). -/
theorem update_event_fields_exclude_id (model : Model) (user_id : Int)
    (element : InstanceElement) :
    ∃ fs : Instance,
      (update_action_create_instance_write_request_element model user_id element).events
        = [{ type := "update", fqid := ⟨model.collection, instanceIdOf element.instance_⟩,
             fields := some fs }] ∧
      alookup "id" fs = none ∧
      (∀ k : String, k ≠ "id" → alookup k fs = alookup k element.instance_) := by
  refine ⟨element.instance_.filter (fun p => p.1 ≠ "id"), rfl, ?_, ?_⟩
  · exact alookup_filter_key_none "id" element.instance_
  · exact fun k hk => alookup_filter_key_ne hk element.instance_

def elementW5 : InstanceElement :=
  { instance_ := [("id", Value.int 4), ("title", Value.str "x")], relations := [] }

def modelW5 : Model := { collection := "mcs", fields := [] }

/-- Witness for C5 at a concrete instance element. -/
theorem update_event_fields_exclude_id_witness :
    ∃ fs : Instance,
      (update_action_create_instance_write_request_element modelW5 5 elementW5).events
        = [{ type := "update", fqid := ⟨modelW5.collection, instanceIdOf elementW5.instance_⟩,
             fields := some fs }] ∧
      alookup "id" fs = none ∧
      (∀ k : String, k ≠ "id" → alookup k fs = alookup k elementW5.instance_) :=
  update_event_fields_exclude_id modelW5 5 elementW5

/-! ## Delete field-loop lemmas (structured skip, SET_NULL collection) -/

/-- The SET_NULL-collection condition of the delete field loop: a
non-structured relation field whose `on_delete` is SET_NULL. -/
def setNullCond (p : String × Field) : Bool :=
  !structuredSkip p.2 && decide (p.2.on_delete = OnDelete.SET_NULL)

def setNullFields (fs : List (String × Field)) : List (String × Field) :=
  fs.filter setNullCond

/-- The instance after the delete field loop: every SET_NULL-collected field
bound to `None`, in loop order. -/
def setNullApply (fs : List (String × Field)) (inst : Instance) : Instance :=
  fs.foldl (fun i p => if setNullCond p then aset p.1 Value.null i else i) inst

/-- **C8.** For every delete batch, every relation field with a
`structured_relation` path or a `structured_tag` is silently skipped by the
delete preparer's field loop (generics.py:229-231): running the loop on a
field list is the same as running it on the list with all such fields
removed, so a skipped field triggers no storage read, no PROTECT failure, no
cascade, no nulling of the instance, and no entry in the relation fields
passed on to reverse-relation resolution. -/
theorem delete_skips_structured_fields (env : Env)
    (nested : Model → List Instance → Except ActionErr (List WriteRequestElement))
    (model : Model) (instId : Int) :
    ∀ (fs : List (String × Field)) (inst : Instance) (rf : List (String × Field))
      (addl : List WriteRequestElement),
    delete_field_loop env nested model instId fs inst rf addl =
      delete_field_loop env nested model instId (fs.filter (fun p => !structuredSkip p.2))
        inst rf addl := by
  intro fs
  induction fs with
  | nil => intro inst rf addl; rfl
  | cons p rest ih =>
      intro inst rf addl
      obtain ⟨field_name, field⟩ := p
      by_cases hsk : structuredSkip field
      · simp [delete_field_loop, List.filter_cons, hsk, ih]
      · cases hod : field.on_delete with
        | SET_NULL => simp [delete_field_loop, List.filter_cons, hsk, hod, ih]
        | PROTECT =>
            cases hdb : database_get env.db ⟨model.collection, instId⟩ [field_name] true with
            | error e => simp [delete_field_loop, List.filter_cons, hsk, hod, hdb]
            | ok dbi =>
                by_cases ht : truthy (pyGet dbi field_name)
                · simp [delete_field_loop, List.filter_cons, hsk, hod, hdb, ht]
                · simp [delete_field_loop, List.filter_cons, hsk, hod, hdb, ht, ih]
        | CASCADE =>
            cases hdb : database_get env.db ⟨model.collection, instId⟩ [field_name] true with
            | error e => simp [delete_field_loop, List.filter_cons, hsk, hod, hdb]
            | ok dbi =>
                cases hcl : cascade_list env nested (cascadeFqids field (alookup field_name dbi)) addl with
                | error e => simp [delete_field_loop, List.filter_cons, hsk, hod, hdb, hcl]
                | ok addl2 => simp [delete_field_loop, List.filter_cons, hsk, hod, hdb, hcl, ih]

/-- A successful delete field loop leaves the instance with exactly the
SET_NULL-collected fields nulled and returns exactly those fields appended to
the incoming relation-field accumulator. -/
theorem delete_field_loop_ok_characterization (env : Env)
    (nested : Model → List Instance → Except ActionErr (List WriteRequestElement))
    (model : Model) (instId : Int) :
    ∀ (fs : List (String × Field)) (inst : Instance) (rf : List (String × Field))
      (addl : List WriteRequestElement) (inst' : Instance) (rf' : List (String × Field))
      (addl' : List WriteRequestElement),
    delete_field_loop env nested model instId fs inst rf addl = Except.ok (inst', rf', addl') →
    inst' = setNullApply fs inst ∧ rf' = rf ++ setNullFields fs := by
  intro fs
  induction fs with
  | nil =>
      intro inst rf addl inst' rf' addl' h
      simp [delete_field_loop] at h
      simp [setNullApply, setNullFields, h.1.symm, h.2.1.symm]
  | cons p rest ih =>
      intro inst rf addl inst' rf' addl' h
      obtain ⟨field_name, field⟩ := p
      by_cases hsk : structuredSkip field
      · have hc : setNullCond (field_name, field) = false := by
          simp [setNullCond, hsk]
        simp only [delete_field_loop, hsk, if_true, reduceIte] at h
        have := ih inst rf addl inst' rf' addl' h
        simpa [setNullApply, setNullFields, List.filter_cons, hc] using this
      · cases hod : field.on_delete with
        | SET_NULL =>
            have hc : setNullCond (field_name, field) = true := by
              simp [setNullCond, hsk, hod]
            simp only [delete_field_loop, hsk, hod, Bool.false_eq_true, if_false, reduceIte] at h
            have := ih _ _ _ _ _ _ h
            refine ⟨?_, ?_⟩
            · simpa [setNullApply, List.foldl_cons, hc] using this.1
            · rw [this.2]
              simp [setNullFields, List.filter_cons, hc]
        | PROTECT =>
            have hc : setNullCond (field_name, field) = false := by
              simp [setNullCond, hod]
            simp only [delete_field_loop, hsk, hod, Bool.false_eq_true, if_false, reduceIte] at h
            cases hdb : database_get env.db ⟨model.collection, instId⟩ [field_name] true with
            | error e => rw [hdb] at h; exact absurd h (by simp)
            | ok dbi =>
                simp only [hdb] at h
                by_cases ht : truthy (pyGet dbi field_name) = true
                · rw [if_pos ht] at h; exact absurd h (by simp)
                · rw [if_neg ht] at h
                  have := ih _ _ _ _ _ _ h
                  simpa [setNullApply, setNullFields, List.filter_cons, hc] using this
        | CASCADE =>
            have hc : setNullCond (field_name, field) = false := by
              simp [setNullCond, hod]
            simp only [delete_field_loop, hsk, hod, Bool.false_eq_true, if_false, reduceIte] at h
            cases hdb : database_get env.db ⟨model.collection, instId⟩ [field_name] true with
            | error e => rw [hdb] at h; exact absurd h (by simp)
            | ok dbi =>
                simp only [hdb] at h
                cases hcl : cascade_list env nested (cascadeFqids field (alookup field_name dbi)) addl with
                | error e =>
                    simp only [hcl] at h
                    exact absurd h (by simp)
                | ok addl2 =>
                    simp only [hcl] at h
                    have := ih _ _ _ _ _ _ h
                    simpa [setNullApply, setNullFields, List.filter_cons, hc] using this

/-- Every write of the delete field loop writes `None`, so a field already
`None` stays `None`. -/
theorem setNullApply_preserves_null (fn : String) :
    ∀ (fs : List (String × Field)) (inst : Instance),
    alookup fn inst = some Value.null →
    alookup fn (setNullApply fs inst) = some Value.null := by
  intro fs
  induction fs with
  | nil => intro inst h; exact h
  | cons p rest ih =>
      intro inst h
      by_cases hc : setNullCond p = true
      · simp only [setNullApply, List.foldl_cons, hc, if_true, reduceIte]
        apply ih
        by_cases hp : fn = p.1
        · rw [hp]; exact alookup_aset_self p.1 Value.null inst
        · rw [alookup_aset_ne hp Value.null inst]; exact h
      · simp only [setNullApply, List.foldl_cons, hc, if_false, reduceIte]
        exact ih inst h

theorem setNullApply_sets_null (fn : String) :
    ∀ (fs : List (String × Field)) (inst : Instance),
    (∃ p, p ∈ fs ∧ setNullCond p = true ∧ p.1 = fn) →
    alookup fn (setNullApply fs inst) = some Value.null := by
  intro fs
  induction fs with
  | nil =>
      intro inst h
      obtain ⟨p, hp, _, _⟩ := h
      exact absurd hp (List.not_mem_nil p)
  | cons q rest ih =>
      intro inst h
      obtain ⟨p, hp, hcond, hname⟩ := h
      rcases List.mem_cons.mp hp with hq | hrest
      · subst hq
        simp only [setNullApply, List.foldl_cons, hcond, if_true, reduceIte]
        apply setNullApply_preserves_null
        rw [hname]
        exact alookup_aset_self fn Value.null inst
      · by_cases hc : setNullCond q = true
        · simp only [setNullApply, List.foldl_cons, hc, if_true, reduceIte]
          exact ih _ ⟨p, hrest, hcond, hname⟩
        · simp only [setNullApply, List.foldl_cons, hc, if_false, reduceIte]
          exact ih _ ⟨p, hrest, hcond, hname⟩

/-- **C9.** For every delete batch, every non-structured relation field of the
model with `on_delete = SET_NULL` is set to `None` on the instance before
relation resolution, and exactly these fields (no PROTECT or CASCADE fields,
no structured fields) are the relation fields handed to reverse-relation
resolution for the instance (generics.py:273-283). -/
theorem delete_set_null_fields_resolution (env : Env)
    (nested : Model → List Instance → Except ActionErr (List WriteRequestElement))
    (model : Model) (inst0 : Instance) (addl : List WriteRequestElement)
    (elem : InstanceElement) (addl2 : List WriteRequestElement) (instId : Int)
    (hid : deleteInstanceId inst0 = Except.ok instId)
    (hok : delete_prepare_instance env nested model inst0 addl = Except.ok (elem, addl2)) :
    elem.instance_ = setNullApply model.get_relation_fields inst0 ∧
    (∀ fn f, (fn, f) ∈ model.get_relation_fields → structuredSkip f = false →
        f.on_delete = OnDelete.SET_NULL → alookup fn elem.instance_ = some Value.null) ∧
    elem.relations = get_relations env model instId elem.instance_
        (setNullFields model.get_relation_fields) false := by
  simp only [delete_prepare_instance, hid] at hok
  cases hloop : delete_field_loop env nested model instId model.get_relation_fields inst0 [] addl with
  | error e =>
      rw [hloop] at hok
      exact absurd hok (by simp)
  | ok r =>
      rw [hloop] at hok
      simp only [Except.ok.injEq, Prod.mk.injEq] at hok
      have hchar := delete_field_loop_ok_characterization env nested model instId
        model.get_relation_fields inst0 [] addl r.1 r.2.1 r.2.2 hloop
      obtain ⟨hinst, hrf⟩ := hchar
      obtain ⟨helem, haddl⟩ := hok
      have hinst' : elem.instance_ = setNullApply model.get_relation_fields inst0 := by
        rw [← helem]; exact hinst
      refine ⟨hinst', ?_, ?_⟩
      · intro fn f hmem hskip hod
        rw [hinst']
        apply setNullApply_sets_null
        exact ⟨(fn, f), hmem, by simp [setNullCond, hskip, hod], rfl⟩
      · rw [← helem]
        simp only
        rw [hinst, hrf, List.nil_append]

def fldW9 : Field :=
  { «to» := ["x"], isGeneric := false, on_delete := OnDelete.SET_NULL,
    structured_relation := none, structured_tag := none, default := none,
    related_name := "m_id", isRelationField := true }

def fldW9s : Field :=
  { «to» := ["x"], isGeneric := false, on_delete := OnDelete.SET_NULL,
    structured_relation := some ["m_id"], structured_tag := none, default := none,
    related_name := "sref_id", isRelationField := true }

def modelW9 : Model := { collection := "m", fields := [("xs", fldW9), ("sref", fldW9s)] }

def envW9 : Env :=
  { db := [(⟨"m", 2⟩, [("xs", Value.list [Value.int 7, Value.int 8])])]
  , actions_map := [], reserveStart := fun _ => 1 }

def nestedW9 (_ : Model) (_ : List Instance) :
    Except ActionErr (List WriteRequestElement) :=
  Except.error ActionErr.outOfFuel

def instW9 : Instance := [("id", Value.int 2)]

def elemW9 : InstanceElement :=
  { instance_ := [("id", Value.int 2), ("xs", Value.null)]
  , relations := [⟨⟨"x", 7⟩, "m_id", "remove", Value.int 2⟩,
                  ⟨⟨"x", 8⟩, "m_id", "remove", Value.int 2⟩] }

/-- Witness for C9 at a model with one plain SET_NULL field and one skipped
structured-relation field. -/
theorem delete_set_null_fields_resolution_witness :
    elemW9.instance_ = setNullApply modelW9.get_relation_fields instW9 ∧
    (∀ fn f, (fn, f) ∈ modelW9.get_relation_fields → structuredSkip f = false →
        f.on_delete = OnDelete.SET_NULL → alookup fn elemW9.instance_ = some Value.null) ∧
    elemW9.relations = get_relations envW9 modelW9 2 elemW9.instance_
        (setNullFields modelW9.get_relation_fields) false :=
  delete_set_null_fields_resolution envW9 nestedW9 modelW9 instW9 [] elemW9 [] 2 rfl rfl

/-! ## Create defaults (C4) -/

theorem foldl_apply_default_preserves :
    ∀ (fs : List (String × Field)) (inst : Instance) (k : String) (v : Value),
    alookup k inst = some v → alookup k (fs.foldl apply_default inst) = some v := by
  intro fs
  induction fs with
  | nil => intro inst k v h; exact h
  | cons p rest ih =>
      intro inst k v h
      rw [List.foldl_cons]
      apply ih
      unfold apply_default
      cases hl : alookup p.1 inst with
      | some w => cases p.2.default <;> simp [h]
      | none =>
          cases hd : p.2.default with
          | none => simp [h]
          | some d =>
              simp only
              have hpk : k ≠ p.1 := fun hh => by
                rw [hh] at h; rw [h] at hl; exact Option.noConfusion hl
              rw [alookup_aset_ne hpk d inst]
              exact h

theorem foldl_apply_default_sets :
    ∀ (fs : List (String × Field)) (inst : Instance) (fn : String) (f : Field) (d : Value),
    (fs.map Prod.fst).Nodup → (fn, f) ∈ fs → f.default = some d → alookup fn inst = none →
    alookup fn (fs.foldl apply_default inst) = some d := by
  intro fs
  induction fs with
  | nil =>
      intro inst fn f d _ hmem _ _
      exact absurd hmem (List.not_mem_nil (fn, f))
  | cons q rest ih =>
      intro inst fn f d hnodup hmem hdef habs
      rw [List.map_cons, List.nodup_cons] at hnodup
      rw [List.foldl_cons]
      rcases List.mem_cons.mp hmem with hq | hrest
      · have hq1 : q.1 = fn := by rw [← hq]
        have hq2 : q.2 = f := by rw [← hq]
        have hstep : apply_default inst q = aset fn d inst := by
          unfold apply_default
          rw [hq1, hq2, habs, hdef]
        rw [hstep]
        exact foldl_apply_default_preserves rest (aset fn d inst) fn d
          (alookup_aset_self fn d inst)
      · have hqfn : q.1 ≠ fn := by
          intro hh
          exact hnodup.1 (hh ▸ List.mem_map_of_mem Prod.fst hrest)
        have hstep : alookup fn (apply_default inst q) = none := by
          unfold apply_default
          cases hl : alookup q.1 inst with
          | some w => cases q.2.default <;> simpa using habs
          | none =>
              cases hd : q.2.default with
              | none => simpa using habs
              | some d' =>
                  simp only
                  rw [alookup_aset_ne (fun hh => hqfn hh.symm) d' inst]
                  exact habs
        exact ih (apply_default inst q) fn f d hnodup.2 hrest hdef hstep

/-- The two guarantees of `set_defaults` (generics.py:67-71): fields present
in the input are unchanged, and each absent field with a declared default is
bound to its default (under unique field names in the model catalog). -/
theorem set_defaults_spec (model : Model) (inst : Instance)
    (hnodup : (model.fields.map Prod.fst).Nodup) :
    (∀ k v, alookup k inst = some v → alookup k (set_defaults model inst) = some v) ∧
    (∀ fn f d, (fn, f) ∈ model.get_fields → f.default = some d → alookup fn inst = none →
        alookup fn (set_defaults model inst) = some d) := by
  constructor
  · intro k v h
    exact foldl_apply_default_preserves model.get_fields inst k v h
  · intro fn f d hmem hdef habs
    exact foldl_apply_default_sets model.get_fields inst fn f d hnodup hmem hdef habs

theorem create_prepare_instance_ok_instance (env : Env) (model : Model)
    (inst : Instance) (s s' : ResState) (elem : CreateElement)
    (h : create_action_prepare_instance env model inst s = (s', Except.ok elem)) :
    elem.instance_ = set_defaults model inst := by
  cases hc : createCollectRelationFields (set_defaults model inst) model.get_relation_fields with
  | error e =>
      simp only [create_action_prepare_instance, hc] at h
      simp at h
  | ok rf =>
      simp only [create_action_prepare_instance, hc, Prod.mk.injEq, Except.ok.injEq] at h
      rw [← h.2]

theorem create_prepare_go_index (env : Env) (model : Model) :
    ∀ (payload : List Instance) (s s' : ResState) (data : List CreateElement),
    create_prepare_go env model payload s = (s', Except.ok data) →
    ∀ k : Nat, data[k]?.map (fun e => e.instance_) = (payload[k]?).map (fun i => set_defaults model i) := by
  intro payload
  induction payload with
  | nil =>
      intro s s' data h k
      simp only [create_prepare_go, Prod.mk.injEq, Except.ok.injEq] at h
      rw [← h.2]
      simp
  | cons inst rest ih =>
      intro s s' data h k
      rw [create_prepare_go] at h
      cases hpi : create_action_prepare_instance env model inst s with
      | mk s1 res =>
          rw [hpi] at h
          cases res with
          | error e => simp at h
          | ok elem =>
              simp only at h
              cases hgo : create_prepare_go env model rest s1 with
              | mk s2 res2 =>
                  rw [hgo] at h
                  cases res2 with
                  | error e => simp at h
                  | ok elems =>
                      simp only [Prod.mk.injEq, Except.ok.injEq] at h
                      rw [← h.2]
                      cases k with
                      | zero =>
                          have hi := create_prepare_instance_ok_instance env model inst s s1 elem hpi
                          simp [hi]
                      | succ n =>
                          simpa using ih s1 s2 elems hgo n

theorem concatMap_append {α β : Type} (f : α → List β) (a b : List α) :
    concatMap f (a ++ b) = concatMap f a ++ concatMap f b := by
  induction a with
  | nil => simp [concatMap]
  | cons x xs ih => simp [concatMap, ih]

/-- The events of the reverse-relation update elements are all update
events, so none survives a filter for another type. -/
theorem relation_elements_no_create (user_id : Int) (rels : List RelationMutation) :
    (concatMap (fun w => w.events) (rels.map (relation_write_request_element user_id))).filter
      (fun e => e.type == "create") = [] := by
  induction rels with
  | nil => simp [concatMap]
  | cons m rest ih =>
      simp [concatMap, relation_write_request_element, List.filter_cons, ih]

theorem create_base_events_filter (model : Model) (user_id : Int) :
    ∀ data : List CreateElement,
    (concatMap (fun w => w.events) (create_base_write_request_elements model user_id data)).filter
        (fun e => e.type == "create")
      = data.map (fun e => { type := "create", fqid := ⟨model.collection, e.new_id⟩,
                             fields := some e.instance_ : Event }) := by
  intro data
  induction data with
  | nil => simp [create_base_write_request_elements, concatMap]
  | cons e rest ih =>
      have hsplit : create_base_write_request_elements model user_id (e :: rest)
          = [create_action_create_instance_write_request_element model user_id e]
            ++ e.relations.map (relation_write_request_element user_id)
            ++ create_base_write_request_elements model user_id rest := by
        simp [create_base_write_request_elements, concatMap]
      rw [hsplit, concatMap_append, concatMap_append]
      simp only [List.filter_append]
      rw [relation_elements_no_create, ih]
      simp [concatMap, create_action_create_instance_write_request_element, List.filter_cons]

/-- **C4.** For every create batch, the k-th emitted create event's field map
is the k-th input instance with defaults applied: it contains, for each model
field with a declared default absent from the input, that field bound to its
default, and all fields present in the input unchanged (generics.py:29-71,
88-102; field-name uniqueness of the model catalog assumed). -/
theorem create_event_fields_defaults (env : Env) (model : Model) (payload : List Instance)
    (user_id : Int) (s s' : ResState) (wrs : List WriteRequestElement)
    (hnodup : (model.fields.map Prod.fst).Nodup)
    (hok : create_perform env model payload user_id s = (s', Except.ok wrs)) :
    ∀ (k : Nat) (inst : Instance), payload[k]? = some inst →
      ∃ ev : Event,
        ((concatMap (fun w => w.events) wrs).filter (fun e => e.type == "create"))[k]? = some ev ∧
        ev.fields = some (set_defaults model inst) ∧
        (∀ fn f d, (fn, f) ∈ model.get_fields → f.default = some d → alookup fn inst = none →
            alookup fn (set_defaults model inst) = some d) ∧
        (∀ fn v, alookup fn inst = some v → alookup fn (set_defaults model inst) = some v) := by
  intro k inst hk
  cases hprep : create_action_prepare_dataset env model payload s with
  | mk s1 res =>
      cases res with
      | error e =>
          simp only [create_perform, hprep] at hok
          simp at hok
      | ok data =>
          simp only [create_perform, hprep, Prod.mk.injEq, Except.ok.injEq] at hok
          rw [← hok.2]
          rw [create_base_events_filter]
          simp only [create_action_prepare_dataset] at hprep
          have hidx := create_prepare_go_index env model payload s s1 data hprep k
          rw [hk] at hidx
          cases hdk : data[k]? with
          | none => rw [hdk] at hidx; simp at hidx
          | some elem =>
              rw [hdk] at hidx
              simp only [Option.map_some'] at hidx
              have hinst : elem.instance_ = set_defaults model inst := by
                exact Option.some.inj hidx
              refine ⟨{ type := "create", fqid := ⟨model.collection, elem.new_id⟩,
                        fields := some elem.instance_ }, ?_, ?_, ?_, ?_⟩
              · rw [List.getElem?_map, hdk]
                simp
              · rw [hinst]
              · exact fun fn f d hm hd ha =>
                  (set_defaults_spec model inst hnodup).2 fn f d hm hd ha
              · exact fun fn v h => (set_defaults_spec model inst hnodup).1 fn v h

def fldTitleW4 : Field :=
  { «to» := [], isGeneric := false, on_delete := OnDelete.SET_NULL,
    structured_relation := none, structured_tag := none, default := none,
    related_name := "", isRelationField := false }

def fldTextW4 : Field :=
  { «to» := [], isGeneric := false, on_delete := OnDelete.SET_NULL,
    structured_relation := none, structured_tag := none, default := some (Value.str ""),
    related_name := "", isRelationField := false }

def modelW4 : Model := { collection := "topic", fields := [("title", fldTitleW4), ("text", fldTextW4)] }

def envW4 : Env := { db := [], actions_map := [], reserveStart := fun _ => 41 }

def instW4 : Instance := [("title", Value.str "t")]

def wrsW4 : List WriteRequestElement :=
  [{ events := [{ type := "create", fqid := ⟨"topic", 41⟩,
                  fields := some [("title", Value.str "t"), ("text", Value.str "")] }]
   , information := [(⟨"topic", 41⟩, ["Object created"])]
   , user_id := 5 }]

/-- Witness for C4 at the spec's scenario: create `{title: "t"}` for a model
whose `text` field defaults to `""`. -/
theorem create_event_fields_defaults_witness :
    ∃ ev : Event,
      ((concatMap (fun w => w.events) wrsW4).filter (fun e => e.type == "create"))[0]? = some ev ∧
      ev.fields = some (set_defaults modelW4 instW4) ∧
      (∀ fn f d, (fn, f) ∈ modelW4.get_fields → f.default = some d → alookup fn instW4 = none →
          alookup fn (set_defaults modelW4 instW4) = some d) ∧
      (∀ fn v, alookup fn instW4 = some v → alookup fn (set_defaults modelW4 instW4) = some v) :=
  create_event_fields_defaults envW4 modelW4 [instW4] 5 [] [("topic", 1)] wrsW4
    (by decide) rfl 0 instW4 rfl

/-! ## Structured-relation checks (C6, C7) -/

theorem updateCollect_error_eq (inst : Instance) :
    ∀ (l : List (String × Field)) (e : ActionErr),
    updateCollectRelationFields inst l = Except.error e → e = ActionErr.updateStructured := by
  intro l
  induction l with
  | nil => intro e h; simp [updateCollectRelationFields] at h
  | cons p rest ih =>
      intro e h
      obtain ⟨fn, f⟩ := p
      simp only [updateCollectRelationFields] at h
      by_cases hp : (alookup fn inst).isSome = true
      · rw [if_pos hp] at h
        by_cases hs : optListTruthy f.structured_relation = true
        · rw [if_pos hs] at h
          cases hv : pyGet inst ((f.structured_relation.getD []).headD "") with
          | null =>
              rw [hv] at h
              cases hr : updateCollectRelationFields inst rest with
              | error e' =>
                  simp only [hr] at h
                  exact (Except.error.inj h) ▸ ih e' hr
              | ok r =>
                  simp only [hr] at h
                  exact Except.noConfusion h
          | int n => rw [hv] at h; exact (Except.error.inj h).symm
          | str st => rw [hv] at h; exact (Except.error.inj h).symm
          | fqidV q => rw [hv] at h; exact (Except.error.inj h).symm
          | list xs => rw [hv] at h; exact (Except.error.inj h).symm
        · rw [if_neg hs] at h
          cases hr : updateCollectRelationFields inst rest with
          | error e' =>
              simp only [hr] at h
              exact (Except.error.inj h) ▸ ih e' hr
          | ok r =>
              simp only [hr] at h
              exact Except.noConfusion h
      · rw [if_neg hp] at h
        exact ih e h

theorem updateCollect_ok_inv (inst : Instance) :
    ∀ (l : List (String × Field)) (r : List (String × Field)),
    updateCollectRelationFields inst l = Except.ok r →
    ∀ fn f, (fn, f) ∈ l → (alookup fn inst).isSome = true →
      optListTruthy f.structured_relation = true →
      pyGet inst ((f.structured_relation.getD []).headD "") = Value.null := by
  intro l
  induction l with
  | nil => intro r h fn f hmem; exact absurd hmem (List.not_mem_nil (fn, f))
  | cons p rest ih =>
      intro r h fn f hmem hp hs
      obtain ⟨fn0, f0⟩ := p
      simp only [updateCollectRelationFields] at h
      by_cases hp0 : (alookup fn0 inst).isSome = true
      · rw [if_pos hp0] at h
        by_cases hs0 : optListTruthy f0.structured_relation = true
        · rw [if_pos hs0] at h
          cases hv : pyGet inst ((f0.structured_relation.getD []).headD "") with
          | null =>
              rw [hv] at h
              cases hr : updateCollectRelationFields inst rest with
              | error e => simp only [hr] at h; exact Except.noConfusion h
              | ok r' =>
                  rcases List.mem_cons.mp hmem with heq | hrest
                  · cases heq; exact hv
                  · exact ih r' hr fn f hrest hp hs
          | int n => rw [hv] at h; exact Except.noConfusion h
          | str st => rw [hv] at h; exact Except.noConfusion h
          | fqidV q => rw [hv] at h; exact Except.noConfusion h
          | list xs => rw [hv] at h; exact Except.noConfusion h
        · rw [if_neg hs0] at h
          cases hr : updateCollectRelationFields inst rest with
          | error e => simp only [hr] at h; exact Except.noConfusion h
          | ok r' =>
              rcases List.mem_cons.mp hmem with heq | hrest
              · cases heq; exact absurd hs hs0
              · exact ih r' hr fn f hrest hp hs
      · rw [if_neg hp0] at h
        rcases List.mem_cons.mp hmem with heq | hrest
        · cases heq; exact absurd hp hp0
        · exact ih r h fn f hrest hp hs

theorem update_prepare_instance_ok_collect (env : Env) (model : Model) (inst : Instance)
    (elem : InstanceElement)
    (h : update_action_prepare_instance env model inst = Except.ok elem) :
    ∃ rf, updateCollectRelationFields inst model.get_relation_fields = Except.ok rf := by
  unfold update_action_prepare_instance at h
  cases hid : alookup "id" inst with
  | none => rw [hid] at h; exact Except.noConfusion h
  | some v =>
      rw [hid] at h
      cases v with
      | int i =>
          cases hc : updateCollectRelationFields inst model.get_relation_fields with
          | error e => rw [hc] at h; exact Except.noConfusion h
          | ok rf => exact ⟨rf, rfl⟩
      | null => exact Except.noConfusion h
      | str st => exact Except.noConfusion h
      | fqidV q => exact Except.noConfusion h
      | list xs => exact Except.noConfusion h

theorem update_prepare_go_ok_mem (env : Env) (model : Model) :
    ∀ (payload : List Instance) (data : List InstanceElement),
    update_prepare_go env model payload = Except.ok data →
    ∀ inst ∈ payload, ∃ elem, update_action_prepare_instance env model inst = Except.ok elem := by
  intro payload
  induction payload with
  | nil => intro data h inst hmem; exact absurd hmem (List.not_mem_nil inst)
  | cons i rest ih =>
      intro data h inst hmem
      simp only [update_prepare_go] at h
      cases hpi : update_action_prepare_instance env model i with
      | error e => rw [hpi] at h; exact Except.noConfusion h
      | ok elem =>
          rw [hpi] at h
          cases hgo : update_prepare_go env model rest with
          | error e => rw [hgo] at h; exact Except.noConfusion h
          | ok elems =>
              rcases List.mem_cons.mp hmem with heq | hrest
              · subst heq; exact ⟨elem, hpi⟩
              · exact ih elems hgo inst hrest

/-- **C6.** For every update batch, if an instance contains a relation field
that has a `structured_relation` path together with a non-null value for that
path's foreign-key field, the whole batch fails with the integrity error of
generics.py:140-145 before any relation resolution: the batch can never
succeed, and with that instance first in the payload the update action
returns exactly that error. -/
theorem update_structured_relation_conflict_fails (env : Env) (model : Model)
    (payload : List Instance) (user_id : Int) (inst : Instance) (fn : String) (f : Field)
    (hinst : inst ∈ payload)
    (hmem : (fn, f) ∈ model.get_relation_fields)
    (hpresent : (alookup fn inst).isSome = true)
    (hsr : optListTruthy f.structured_relation = true)
    (hfk : pyGet inst ((f.structured_relation.getD []).headD "") ≠ Value.null) :
    (∀ r, update_perform env model payload user_id ≠ Except.ok r) ∧
    (∀ iid rest, payload = inst :: rest → alookup "id" inst = some (Value.int iid) →
        update_perform env model payload user_id = Except.error ActionErr.updateStructured) := by
  constructor
  · intro r hok
    unfold update_perform at hok
    cases hgo : update_prepare_go env model payload with
    | error e => rw [hgo] at hok; exact Except.noConfusion hok
    | ok data =>
        obtain ⟨elem, helem⟩ := update_prepare_go_ok_mem env model payload data hgo inst hinst
        obtain ⟨rf, hrf⟩ := update_prepare_instance_ok_collect env model inst elem helem
        exact hfk (updateCollect_ok_inv inst model.get_relation_fields rf hrf fn f hmem hpresent hsr)
  · intro iid rest hpay hid
    subst hpay
    have hcol : ∃ e, updateCollectRelationFields inst model.get_relation_fields = Except.error e := by
      cases hc : updateCollectRelationFields inst model.get_relation_fields with
      | error e => exact ⟨e, rfl⟩
      | ok r =>
          exact absurd (updateCollect_ok_inv inst model.get_relation_fields r hc fn f hmem
            hpresent hsr) hfk
    obtain ⟨e, hc⟩ := hcol
    have he := updateCollect_error_eq inst model.get_relation_fields e hc
    subst he
    have hpi : update_action_prepare_instance env model inst
        = Except.error ActionErr.updateStructured := by
      simp only [update_action_prepare_instance, hid, hc]
    have hgo : update_prepare_go env model (inst :: rest)
        = Except.error ActionErr.updateStructured := by
      simp only [update_prepare_go, hpi]
    simp only [update_perform, hgo]

def fldW6 : Field :=
  { «to» := ["fake_model_a"], isGeneric := false, on_delete := OnDelete.SET_NULL,
    structured_relation := some ["meeting_id"], structured_tag := none, default := none,
    related_name := "structured_ids", isRelationField := true }

def modelW6 : Model := { collection := "fake_model_b", fields := [("sfield", fldW6)] }

def envW6 : Env := { db := [], actions_map := [], reserveStart := fun _ => 1 }

def instW6 : Instance :=
  [("id", Value.int 1), ("sfield", Value.int 2), ("meeting_id", Value.int 5)]

/-- Witness for C6: updating an instance that sets both a structured-relation
field and its foreign key fails with the update integrity error. -/
theorem update_structured_relation_conflict_fails_witness :
    update_perform envW6 modelW6 [instW6] 5 = Except.error ActionErr.updateStructured :=
  (update_structured_relation_conflict_fails envW6 modelW6 [instW6] 5 instW6 "sfield" fldW6
    (List.mem_singleton.mpr rfl) (List.mem_singleton.mpr rfl) rfl rfl
    (fun h => Value.noConfusion h)).2 1 [] rfl rfl

theorem createCollect_error_eq (inst : Instance) :
    ∀ (l : List (String × Field)) (e : ActionErr),
    createCollectRelationFields inst l = Except.error e → e = ActionErr.createStructured := by
  intro l
  induction l with
  | nil => intro e h; simp [createCollectRelationFields] at h
  | cons p rest ih =>
      intro e h
      obtain ⟨fn, f⟩ := p
      simp only [createCollectRelationFields] at h
      by_cases hp : (alookup fn inst).isSome = true
      · rw [if_pos hp] at h
        by_cases hs : optListTruthy f.structured_relation = true
        · rw [if_pos hs] at h
          cases hv : pyGet inst ((f.structured_relation.getD []).headD "") with
          | null => rw [hv] at h; exact (Except.error.inj h).symm
          | int n =>
              rw [hv] at h
              cases hr : createCollectRelationFields inst rest with
              | error e' =>
                  simp only [hr] at h
                  exact (Except.error.inj h) ▸ ih e' hr
              | ok r =>
                  simp only [hr] at h
                  exact Except.noConfusion h
          | str st =>
              rw [hv] at h
              cases hr : createCollectRelationFields inst rest with
              | error e' =>
                  simp only [hr] at h
                  exact (Except.error.inj h) ▸ ih e' hr
              | ok r =>
                  simp only [hr] at h
                  exact Except.noConfusion h
          | fqidV q =>
              rw [hv] at h
              cases hr : createCollectRelationFields inst rest with
              | error e' =>
                  simp only [hr] at h
                  exact (Except.error.inj h) ▸ ih e' hr
              | ok r =>
                  simp only [hr] at h
                  exact Except.noConfusion h
          | list xs =>
              rw [hv] at h
              cases hr : createCollectRelationFields inst rest with
              | error e' =>
                  simp only [hr] at h
                  exact (Except.error.inj h) ▸ ih e' hr
              | ok r =>
                  simp only [hr] at h
                  exact Except.noConfusion h
        · rw [if_neg hs] at h
          cases hr : createCollectRelationFields inst rest with
          | error e' =>
              simp only [hr] at h
              exact (Except.error.inj h) ▸ ih e' hr
          | ok r =>
              simp only [hr] at h
              exact Except.noConfusion h
      · rw [if_neg hp] at h
        exact ih e h

theorem createCollect_ok_inv (inst : Instance) :
    ∀ (l : List (String × Field)) (r : List (String × Field)),
    createCollectRelationFields inst l = Except.ok r →
    ∀ fn f, (fn, f) ∈ l → (alookup fn inst).isSome = true →
      optListTruthy f.structured_relation = true →
      pyGet inst ((f.structured_relation.getD []).headD "") ≠ Value.null := by
  intro l
  induction l with
  | nil => intro r h fn f hmem; exact absurd hmem (List.not_mem_nil (fn, f))
  | cons p rest ih =>
      intro r h fn f hmem hp hs
      obtain ⟨fn0, f0⟩ := p
      simp only [createCollectRelationFields] at h
      by_cases hp0 : (alookup fn0 inst).isSome = true
      · rw [if_pos hp0] at h
        by_cases hs0 : optListTruthy f0.structured_relation = true
        · rw [if_pos hs0] at h
          cases hv : pyGet inst ((f0.structured_relation.getD []).headD "") with
          | null => rw [hv] at h; exact Except.noConfusion h
          | int n =>
              rw [hv] at h
              cases hr : createCollectRelationFields inst rest with
              | error e => simp only [hr] at h; exact Except.noConfusion h
              | ok r' =>
                  rcases List.mem_cons.mp hmem with heq | hrest
                  · cases heq; rw [hv]; exact fun hh => Value.noConfusion hh
                  · exact ih r' hr fn f hrest hp hs
          | str st =>
              rw [hv] at h
              cases hr : createCollectRelationFields inst rest with
              | error e => simp only [hr] at h; exact Except.noConfusion h
              | ok r' =>
                  rcases List.mem_cons.mp hmem with heq | hrest
                  · cases heq; rw [hv]; exact fun hh => Value.noConfusion hh
                  · exact ih r' hr fn f hrest hp hs
          | fqidV q =>
              rw [hv] at h
              cases hr : createCollectRelationFields inst rest with
              | error e => simp only [hr] at h; exact Except.noConfusion h
              | ok r' =>
                  rcases List.mem_cons.mp hmem with heq | hrest
                  · cases heq; rw [hv]; exact fun hh => Value.noConfusion hh
                  · exact ih r' hr fn f hrest hp hs
          | list xs =>
              rw [hv] at h
              cases hr : createCollectRelationFields inst rest with
              | error e => simp only [hr] at h; exact Except.noConfusion h
              | ok r' =>
                  rcases List.mem_cons.mp hmem with heq | hrest
                  · cases heq; rw [hv]; exact fun hh => Value.noConfusion hh
                  · exact ih r' hr fn f hrest hp hs
        · rw [if_neg hs0] at h
          cases hr : createCollectRelationFields inst rest with
          | error e => simp only [hr] at h; exact Except.noConfusion h
          | ok r' =>
              rcases List.mem_cons.mp hmem with heq | hrest
              · cases heq; exact absurd hs hs0
              · exact ih r' hr fn f hrest hp hs
      · rw [if_neg hp0] at h
        rcases List.mem_cons.mp hmem with heq | hrest
        · cases heq; exact absurd hp hp0
        · exact ih r h fn f hrest hp hs

theorem create_prepare_go_ok_mem (env : Env) (model : Model) :
    ∀ (payload : List Instance) (s s' : ResState) (data : List CreateElement),
    create_prepare_go env model payload s = (s', Except.ok data) →
    ∀ inst ∈ payload, ∃ s0 s1 elem,
      create_action_prepare_instance env model inst s0 = (s1, Except.ok elem) := by
  intro payload
  induction payload with
  | nil => intro s s' data h inst hmem; exact absurd hmem (List.not_mem_nil inst)
  | cons i rest ih =>
      intro s s' data h inst hmem
      rw [create_prepare_go] at h
      cases hpi : create_action_prepare_instance env model i s with
      | mk s1 res =>
          rw [hpi] at h
          cases res with
          | error e => simp at h
          | ok elem =>
              simp only at h
              cases hgo : create_prepare_go env model rest s1 with
              | mk s2 res2 =>
                  rw [hgo] at h
                  cases res2 with
                  | error e => simp at h
                  | ok elems =>
                      rcases List.mem_cons.mp hmem with heq | hrest
                      · subst heq; exact ⟨s, s1, elem, hpi⟩
                      · exact ih s1 s2 elems hgo inst hrest

/-- **C7.** For every create batch, if an instance (after defaults, which is
what the source checks) contains a relation field with a
`structured_relation` path whose companion foreign-key field is missing or
null, the batch fails with the integrity error of generics.py:41-46: it can
never succeed, and for that instance the error is raised with the
id-reservation state untouched — no id is reserved for it. -/
theorem create_structured_relation_missing_fk_fails (env : Env) (model : Model)
    (payload : List Instance) (user_id : Int) (s : ResState) (inst : Instance)
    (fn : String) (f : Field)
    (hinst : inst ∈ payload)
    (hmem : (fn, f) ∈ model.get_relation_fields)
    (hpresent : (alookup fn (set_defaults model inst)).isSome = true)
    (hsr : optListTruthy f.structured_relation = true)
    (hfk : pyGet (set_defaults model inst) ((f.structured_relation.getD []).headD "")
      = Value.null) :
    (∀ (s' : ResState) (r : List WriteRequestElement),
        create_perform env model payload user_id s ≠ (s', Except.ok r)) ∧
    (∀ s0 : ResState, create_action_prepare_instance env model inst s0
        = (s0, Except.error ActionErr.createStructured)) := by
  have hinstance : ∀ s0 : ResState, create_action_prepare_instance env model inst s0
      = (s0, Except.error ActionErr.createStructured) := by
    intro s0
    have hcol : ∃ e, createCollectRelationFields (set_defaults model inst)
        model.get_relation_fields = Except.error e := by
      cases hc : createCollectRelationFields (set_defaults model inst)
          model.get_relation_fields with
      | error e => exact ⟨e, rfl⟩
      | ok r =>
          exact absurd hfk (createCollect_ok_inv (set_defaults model inst)
            model.get_relation_fields r hc fn f hmem hpresent hsr)
    obtain ⟨e, hc⟩ := hcol
    have he := createCollect_error_eq (set_defaults model inst) model.get_relation_fields e hc
    subst he
    simp only [create_action_prepare_instance, hc]
  constructor
  · intro s' r hok
    unfold create_perform at hok
    cases hprep : create_action_prepare_dataset env model payload s with
    | mk s1 res =>
        rw [hprep] at hok
        cases res with
        | error e => simp at hok
        | ok data =>
            simp only [create_action_prepare_dataset] at hprep
            obtain ⟨s0, s1', elem, hpi⟩ :=
              create_prepare_go_ok_mem env model payload s s1 data hprep inst hinst
            rw [hinstance s0] at hpi
            simp at hpi
  · exact hinstance

def fldW7 : Field :=
  { «to» := ["fake_model_a"], isGeneric := false, on_delete := OnDelete.SET_NULL,
    structured_relation := some ["meeting_id"], structured_tag := none, default := none,
    related_name := "structured_ids", isRelationField := true }

def modelW7 : Model := { collection := "fake_model_b", fields := [("sfield", fldW7)] }

def envW7 : Env := { db := [], actions_map := [], reserveStart := fun _ => 1 }

def instW7 : Instance := [("sfield", Value.int 2)]

/-- Witness for C7: creating an instance that sets a structured-relation
field without its foreign key fails with the create integrity error, leaving
the reservation state untouched. -/
theorem create_structured_relation_missing_fk_fails_witness :
    create_action_prepare_instance envW7 modelW7 instW7 []
      = ([], Except.error ActionErr.createStructured) :=
  (create_structured_relation_missing_fk_fails envW7 modelW7 [instW7] 5 [] instW7
    "sfield" fldW7 (List.mem_singleton.mpr rfl) (List.mem_singleton.mpr rfl)
    rfl rfl rfl).2 []

/-! ## Event-sort lemmas (delete assembler, C1/C3) -/

theorem insertEventDesc_head (e : Event) :
    ∀ l : List Event, (∀ y ∈ l, pyStrLt e.type y.type = false) →
    insertEventDesc e l = e :: l := by
  intro l h
  cases l with
  | nil => rfl
  | cons y ys =>
      have hy := h y (List.mem_cons_self y ys)
      simp [insertEventDesc, hy]

theorem insertEventDesc_append_skip (e : Event) :
    ∀ (us l : List Event), (∀ y ∈ us, pyStrLt e.type y.type = true) →
    insertEventDesc e (us ++ l) = us ++ insertEventDesc e l := by
  intro us
  induction us with
  | nil => intro l _; simp
  | cons y ys ih =>
      intro l h
      have hy := h y (List.mem_cons_self y ys)
      simp only [List.cons_append, insertEventDesc, hy, if_true, reduceIte, List.append_eq]
      rw [ih l (fun z hz => h z (List.mem_cons_of_mem y hz))]

theorem insertEventDesc_perm (e : Event) :
    ∀ l : List Event, (insertEventDesc e l).Perm (e :: l) := by
  intro l
  induction l with
  | nil => exact List.Perm.refl _
  | cons y ys ih =>
      by_cases hc : pyStrLt e.type y.type = true
      · simp only [insertEventDesc, hc, if_true, reduceIte]
        exact (ih.cons y).trans (List.Perm.swap e y ys)
      · simp only [insertEventDesc, hc, if_false, reduceIte]
        exact List.Perm.refl _

theorem sortEventsDesc_perm : ∀ l : List Event, (sortEventsDesc l).Perm l := by
  intro l
  induction l with
  | nil => exact List.Perm.refl _
  | cons e es ih =>
      exact (insertEventDesc_perm e (sortEventsDesc es)).trans (ih.cons e)

/-- The number of delete events in an event list. -/
def countDeletes (evs : List Event) : Nat :=
  (evs.filter (fun e => e.type == "delete")).length

theorem countDeletes_sort (l : List Event) :
    countDeletes (sortEventsDesc l) = countDeletes l :=
  ((sortEventsDesc_perm l).filter _).length_eq

/-- On an event list that holds only update and delete events (the only
kinds a delete batch produces), the source's
`sorted(key=lambda event: event["type"], reverse=True)` is exactly the stable
partition: all non-delete events first, then all delete events, each group in
arrival order. -/
theorem sortEventsDesc_eq_filter :
    ∀ l : List Event, (∀ e ∈ l, e.type = "update" ∨ e.type = "delete") →
    sortEventsDesc l
      = l.filter (fun e => !(e.type == "delete")) ++ l.filter (fun e => e.type == "delete") := by
  intro l
  induction l with
  | nil => intro _; rfl
  | cons x t ih =>
      intro h
      have hx := h x (List.mem_cons_self x t)
      have ht : ∀ e ∈ t, e.type = "update" ∨ e.type = "delete" :=
        fun e he => h e (List.mem_cons_of_mem x he)
      have hfu : ∀ y ∈ t.filter (fun e => !(e.type == "delete")), y.type = "update" := by
        intro y hy
        have hyt := List.of_mem_filter hy
        rcases ht y (List.mem_of_mem_filter hy) with hu | hd
        · exact hu
        · rw [hd] at hyt; simp at hyt
      have hfd : ∀ y ∈ t.filter (fun e => e.type == "delete"), y.type = "delete" := by
        intro y hy
        have hyt := List.of_mem_filter hy
        exact of_decide_eq_true (by simpa using hyt)
      rw [sortEventsDesc, ih ht]
      rcases hx with hu | hd
      · have hins : insertEventDesc x
            (t.filter (fun e => !(e.type == "delete")) ++ t.filter (fun e => e.type == "delete"))
            = x :: (t.filter (fun e => !(e.type == "delete"))
                ++ t.filter (fun e => e.type == "delete")) := by
          apply insertEventDesc_head
          intro y hy
          rw [hu]
          rcases List.mem_append.mp hy with hyu | hyd
          · rw [hfu y hyu]; decide
          · rw [hfd y hyd]; decide
        rw [hins]
        have hxd : (x.type == "delete") = false := by rw [hu]; decide
        simp [List.filter_cons, hxd]
      · have h1 : insertEventDesc x
            (t.filter (fun e => !(e.type == "delete")) ++ t.filter (fun e => e.type == "delete"))
            = t.filter (fun e => !(e.type == "delete"))
              ++ insertEventDesc x (t.filter (fun e => e.type == "delete")) := by
          apply insertEventDesc_append_skip
          intro y hy
          rw [hd, hfu y hy]
          decide
        have h2 : insertEventDesc x (t.filter (fun e => e.type == "delete"))
            = x :: t.filter (fun e => e.type == "delete") := by
          apply insertEventDesc_head
          intro y hy
          rw [hd, hfd y hy]
          decide
        rw [h1, h2]
        have hxd : (x.type == "delete") = true := by rw [hd]; decide
        simp [List.filter_cons, hxd]

/-! ## PROTECT (C2) -/

/-- The single-field restriction `database_get` returns for a stored object. -/
def restrict1 (obj : Instance) (fn : String) : Instance :=
  match alookup fn obj with
  | some v => [(fn, v)]
  | none => []

theorem database_get_single (db : List (FullQualifiedId × Instance)) (q : FullQualifiedId)
    (obj : Instance) (fn : String) (lock : Bool) (hdb : alookup q db = some obj) :
    database_get db q [fn] lock = Except.ok (restrict1 obj fn) := by
  unfold database_get restrict1
  rw [hdb]
  cases hv : alookup fn obj with
  | none => simp [List.filterMap_cons, hv]
  | some v => simp [List.filterMap_cons, hv]

theorem pyGet_restrict1 (obj : Instance) (fn : String) :
    pyGet (restrict1 obj fn) fn = pyGet obj fn := by
  unfold restrict1 pyGet
  cases hv : alookup fn obj with
  | none => simp [alookup, hv]
  | some v => simp [alookup, hv]

theorem alookup_restrict1 (obj : Instance) (fn : String) :
    alookup fn (restrict1 obj fn) = alookup fn obj := by
  unfold restrict1
  cases hv : alookup fn obj with
  | none => simp [alookup, hv]
  | some v => simp [alookup, hv]

/-- If the delete field loop succeeds, every non-structured PROTECT field of
its field list was read back from storage (the object exists) with a falsy
stored value. -/
theorem delete_field_loop_ok_no_protect (env : Env)
    (nested : Model → List Instance → Except ActionErr (List WriteRequestElement))
    (model : Model) (instId : Int) :
    ∀ (fs : List (String × Field)) (inst : Instance) (rf : List (String × Field))
      (addl : List WriteRequestElement)
      (r : Instance × List (String × Field) × List WriteRequestElement),
    delete_field_loop env nested model instId fs inst rf addl = Except.ok r →
    ∀ fn f, (fn, f) ∈ fs → structuredSkip f = false → f.on_delete = OnDelete.PROTECT →
      ∃ obj, alookup (⟨model.collection, instId⟩ : FullQualifiedId) env.db = some obj ∧
        truthy (pyGet obj fn) = false := by
  intro fs
  induction fs with
  | nil => intro inst rf addl r h fn f hmem; exact absurd hmem (List.not_mem_nil (fn, f))
  | cons p rest ih =>
      intro inst rf addl r h fn f hmem hskip hod
      obtain ⟨fn0, f0⟩ := p
      by_cases hsk : structuredSkip f0 = true
      · simp only [delete_field_loop, hsk, if_true, reduceIte] at h
        rcases List.mem_cons.mp hmem with heq | hrest
        · cases heq; exact absurd hsk (by rw [hskip]; simp)
        · exact ih inst rf addl r h fn f hrest hskip hod
      · simp only [delete_field_loop, hsk, Bool.false_eq_true, if_false, reduceIte] at h
        cases hod0 : f0.on_delete with
        | SET_NULL =>
            rw [hod0] at h
            rcases List.mem_cons.mp hmem with heq | hrest
            · cases heq; rw [hod] at hod0; exact OnDelete.noConfusion hod0
            · exact ih _ _ _ r h fn f hrest hskip hod
        | PROTECT =>
            rw [hod0] at h
            cases hdbg : database_get env.db ⟨model.collection, instId⟩ [fn0] true with
            | error e => rw [hdbg] at h; exact Except.noConfusion h
            | ok dbi =>
                simp only [hdbg] at h
                by_cases ht : truthy (pyGet dbi fn0) = true
                · rw [if_pos ht] at h; exact Except.noConfusion h
                · rw [if_neg ht] at h
                  rcases List.mem_cons.mp hmem with heq | hrest
                  · cases heq
                    cases hlk : alookup (⟨model.collection, instId⟩ : FullQualifiedId) env.db with
                    | none =>
                        rw [database_get, hlk] at hdbg
                        exact Except.noConfusion hdbg
                    | some obj =>
                        refine ⟨obj, rfl, ?_⟩
                        have hre := database_get_single env.db ⟨model.collection, instId⟩ obj fn true hlk
                        rw [hre] at hdbg
                        have hdbi : dbi = restrict1 obj fn := (Except.ok.inj hdbg).symm
                        rw [hdbi, pyGet_restrict1] at ht
                        exact Bool.not_eq_true _ ▸ (Bool.of_not_eq_true ht)
                  · exact ih _ _ _ r h fn f hrest hskip hod
        | CASCADE =>
            rw [hod0] at h
            cases hdbg : database_get env.db ⟨model.collection, instId⟩ [fn0] true with
            | error e => rw [hdbg] at h; exact Except.noConfusion h
            | ok dbi =>
                simp only [hdbg] at h
                cases hcl : cascade_list env nested (cascadeFqids f0 (alookup fn0 dbi)) addl with
                | error e => rw [hcl] at h; exact Except.noConfusion h
                | ok addl2 =>
                    rw [hcl] at h
                    rcases List.mem_cons.mp hmem with heq | hrest
                    · cases heq; rw [hod] at hod0; exact OnDelete.noConfusion hod0
                    · exact ih _ _ _ r h fn f hrest hskip hod

theorem delete_prepare_instance_ok_loop (env : Env)
    (nested : Model → List Instance → Except ActionErr (List WriteRequestElement))
    (model : Model) (inst : Instance) (addl : List WriteRequestElement)
    (r : InstanceElement × List WriteRequestElement)
    (h : delete_prepare_instance env nested model inst addl = Except.ok r) :
    ∃ instId lres, deleteInstanceId inst = Except.ok instId ∧
      delete_field_loop env nested model instId model.get_relation_fields inst [] addl
        = Except.ok lres := by
  cases hid : deleteInstanceId inst with
  | error e =>
      simp only [delete_prepare_instance, hid] at h
      exact Except.noConfusion h
  | ok instId =>
      simp only [delete_prepare_instance, hid] at h
      cases hloop : delete_field_loop env nested model instId model.get_relation_fields inst [] addl with
      | error e =>
          simp only [hloop] at h
          exact Except.noConfusion h
      | ok lres => exact ⟨instId, lres, by simp [hid], by simp [hloop]⟩

theorem delete_prepare_go_ok_mem (env : Env)
    (nested : Model → List Instance → Except ActionErr (List WriteRequestElement))
    (model : Model) :
    ∀ (payload : List Instance) (addl : List WriteRequestElement)
      (r : List InstanceElement × List WriteRequestElement),
    delete_prepare_go env nested model payload addl = Except.ok r →
    ∀ inst ∈ payload, ∃ addl0 r0,
      delete_prepare_instance env nested model inst addl0 = Except.ok r0 := by
  intro payload
  induction payload with
  | nil => intro addl r h inst hmem; exact absurd hmem (List.not_mem_nil inst)
  | cons i rest ih =>
      intro addl r h inst hmem
      simp only [delete_prepare_go] at h
      cases hpi : delete_prepare_instance env nested model i addl with
      | error e => rw [hpi] at h; exact Except.noConfusion h
      | ok r0 =>
          rw [hpi] at h
          cases hgo : delete_prepare_go env nested model rest r0.2 with
          | error e => simp only [hgo] at h; exact Except.noConfusion h
          | ok r2 =>
              rcases List.mem_cons.mp hmem with heq | hrest
              · subst heq; exact ⟨addl, r0, hpi⟩
              · exact ih r0.2 r2 hgo inst hrest

/-- A relation field the delete field loop passes through without effect on
the instance, the collected fields (other than SET_NULL collection), or the
cascade buffer: skipped, SET_NULL, or PROTECT over a falsy stored value of
the given stored object. -/
def deleteInert (obj : Instance) (p : String × Field) : Prop :=
  structuredSkip p.2 = true ∨ p.2.on_delete = OnDelete.SET_NULL ∨
    (p.2.on_delete = OnDelete.PROTECT ∧ truthy (pyGet obj p.1) = false)

theorem delete_field_loop_inert_walk (env : Env)
    (nested : Model → List Instance → Except ActionErr (List WriteRequestElement))
    (model : Model) (instId : Int) (obj : Instance)
    (hdb : alookup (⟨model.collection, instId⟩ : FullQualifiedId) env.db = some obj) :
    ∀ (pre rest2 : List (String × Field)) (inst : Instance) (rf : List (String × Field))
      (addl : List WriteRequestElement),
    (∀ p ∈ pre, deleteInert obj p) →
    delete_field_loop env nested model instId (pre ++ rest2) inst rf addl
      = delete_field_loop env nested model instId rest2 (setNullApply pre inst)
          (rf ++ setNullFields pre) addl := by
  intro pre
  induction pre with
  | nil => intro rest2 inst rf addl _; simp [setNullApply, setNullFields]
  | cons p pre' ih =>
      intro rest2 inst rf addl hin
      obtain ⟨fn0, f0⟩ := p
      have hinh := hin (fn0, f0) (List.mem_cons_self _ _)
      have hint : ∀ q ∈ pre', deleteInert obj q := fun q hq => hin q (List.mem_cons_of_mem _ hq)
      by_cases hsk : structuredSkip f0 = true
      · have hc : setNullCond (fn0, f0) = false := by simp [setNullCond, hsk]
        rw [List.cons_append]
        simp only [delete_field_loop, hsk, if_true, reduceIte]
        rw [ih rest2 inst rf addl hint]
        simp [setNullApply, setNullFields, List.filter_cons, hc]
      · rcases hinh with hskip' | hsn | hprot
        · exact absurd hskip' hsk
        · have hsn' : f0.on_delete = OnDelete.SET_NULL := hsn
          have hc : setNullCond (fn0, f0) = true := by simp [setNullCond, hsk, hsn']
          rw [List.cons_append]
          simp only [delete_field_loop, hsk, Bool.false_eq_true, if_false, reduceIte, hsn']
          rw [ih rest2 (aset fn0 Value.null inst) (rf ++ [(fn0, f0)]) addl hint]
          simp only [setNullApply, List.foldl_cons, hc, if_true, reduceIte]
          simp [setNullFields, List.filter_cons, hc]
        · have hprot1 : f0.on_delete = OnDelete.PROTECT := hprot.1
          have hprot2 : truthy (pyGet obj fn0) = false := hprot.2
          have hc : setNullCond (fn0, f0) = false := by simp [setNullCond, hprot1]
          rw [List.cons_append]
          simp only [delete_field_loop, hsk, Bool.false_eq_true, if_false, reduceIte, hprot1]
          rw [database_get_single env.db ⟨model.collection, instId⟩ obj fn0 true hdb]
          simp only [pyGet_restrict1, hprot2, Bool.false_eq_true, if_false, reduceIte]
          rw [ih rest2 inst rf addl hint]
          simp [setNullApply, setNullFields, List.filter_cons, hc]

/-- **C2.** For every delete batch in which some instance's model has a
non-structured relation field with `on_delete = PROTECT` whose stored value
(read back under `lock_result=True`, generics.py:233-244) is truthy
("non-empty"), the whole batch fails — `perform` returns an error, so no
write-request element is produced for any instance — and when the blocking
check is the one reached (that instance first, every relation field before
the PROTECT field inert) the error is exactly the integrity error naming the
blocking related collection `f.to`. -/
theorem delete_protect_blocks_batch (env : Env) (user_id : Int) (fuel : Nat) (model : Model)
    (payload : List Instance) (inst : Instance) (iid : Int) (obj : Instance)
    (fn : String) (f : Field)
    (hinst : inst ∈ payload)
    (hid : alookup "id" inst = some (Value.int iid))
    (hdb : alookup (⟨model.collection, iid⟩ : FullQualifiedId) env.db = some obj)
    (hmem : (fn, f) ∈ model.get_relation_fields)
    (hskip : structuredSkip f = false)
    (hprot : f.on_delete = OnDelete.PROTECT)
    (htruthy : truthy (pyGet obj fn) = true) :
    (∀ r, delete_perform env user_id fuel model payload ≠ Except.ok r) ∧
    (∀ pre post rest, payload = inst :: rest →
        model.get_relation_fields = pre ++ (fn, f) :: post →
        (∀ p ∈ pre, deleteInert obj p) →
        delete_perform env user_id fuel model payload
          = Except.error (ActionErr.protect model.collection iid f.«to»)) := by
  have hdid : deleteInstanceId inst = Except.ok iid := by simp [deleteInstanceId, hid]
  constructor
  · intro r hok
    unfold delete_perform delete_perform_body at hok
    cases hprep : delete_action_prepare_dataset env (delete_nested env user_id fuel)
        model payload with
    | error e => rw [hprep] at hok; exact Except.noConfusion hok
    | ok rr =>
        simp only [delete_action_prepare_dataset] at hprep
        obtain ⟨addl0, r0, hpi⟩ := delete_prepare_go_ok_mem env
          (delete_nested env user_id fuel) model payload [] rr hprep inst hinst
        obtain ⟨instId', lres, hid', hloop⟩ := delete_prepare_instance_ok_loop env
          (delete_nested env user_id fuel) model inst addl0 r0 hpi
        rw [hdid] at hid'
        have hii : iid = instId' := Except.ok.inj hid'
        subst hii
        obtain ⟨obj', hobj', hfalse⟩ := delete_field_loop_ok_no_protect env
          (delete_nested env user_id fuel) model iid model.get_relation_fields inst [] addl0
          lres hloop fn f hmem hskip hprot
        rw [hdb] at hobj'
        have : obj = obj' := Option.some.inj hobj'
        subst this
        rw [htruthy] at hfalse
        exact Bool.noConfusion hfalse
  · intro pre post rest hpay hfields hpre
    subst hpay
    have hloop : delete_field_loop env (delete_nested env user_id fuel) model iid
        model.get_relation_fields inst [] []
        = Except.error (ActionErr.protect model.collection iid f.«to») := by
      rw [hfields]
      rw [delete_field_loop_inert_walk env (delete_nested env user_id fuel) model iid obj
        hdb pre ((fn, f) :: post) inst [] [] hpre]
      simp only [delete_field_loop, hskip, Bool.false_eq_true, if_false, reduceIte, hprot]
      rw [database_get_single env.db ⟨model.collection, iid⟩ obj fn true hdb]
      simp only [pyGet_restrict1, htruthy, if_true, reduceIte]
    have hpi : delete_prepare_instance env (delete_nested env user_id fuel) model inst []
        = Except.error (ActionErr.protect model.collection iid f.«to») := by
      simp only [delete_prepare_instance, hdid, hloop]
    have hgo : delete_prepare_go env (delete_nested env user_id fuel) model (inst :: rest) []
        = Except.error (ActionErr.protect model.collection iid f.«to») := by
      simp only [delete_prepare_go, hpi]
    simp only [delete_perform, delete_perform_body, delete_action_prepare_dataset, hgo]

def fldW2 : Field :=
  { «to» := ["child"], isGeneric := false, on_delete := OnDelete.PROTECT,
    structured_relation := none, structured_tag := none, default := none,
    related_name := "parent_id", isRelationField := true }

def modelW2 : Model := { collection := "parent", fields := [("child_ids", fldW2)] }

def envW2 : Env :=
  { db := [(⟨"parent", 1⟩, [("child_ids", Value.list [Value.int 3])])]
  , actions_map := [], reserveStart := fun _ => 1 }

def instW2 : Instance := [("id", Value.int 1)]

/-- Witness for C2: deleting a protected parent fails with the protect error
naming the blocking collection, and the batch can never succeed. -/
theorem delete_protect_blocks_batch_witness :
    delete_perform envW2 5 0 modelW2 [instW2]
      = Except.error (ActionErr.protect "parent" 1 ["child"]) :=
  (delete_protect_blocks_batch envW2 5 0 modelW2 [instW2] instW2 1
    [("child_ids", Value.list [Value.int 3])] "child_ids" fldW2
    (List.mem_singleton.mpr rfl) rfl rfl (List.mem_singleton.mpr rfl) rfl rfl rfl).2
    [] [] [] rfl rfl (fun p hp => absurd hp (List.not_mem_nil p))

/-! ## CASCADE (C3) -/

/-- The single write-request element a cascaded delete of a leaf target (a
model with no relation fields) produces. -/
def leafDeleteElement (user_id : Int) (c : String) (i : Int) : WriteRequestElement :=
  { events := [{ type := "delete", fqid := ⟨c, i⟩, fields := none }]
  , information := [(⟨c, i⟩, ["Object deleted"])]
  , user_id := user_id }

theorem delete_nested_leaf (env : Env) (user_id : Int) (g : Nat) (tm : Model) (i : Int)
    (h0 : tm.get_relation_fields = []) :
    delete_nested env user_id (g + 1) tm [[("id", Value.int i)]]
      = Except.ok [leafDeleteElement user_id tm.collection i] := by
  simp [delete_nested, delete_perform_body, delete_action_prepare_dataset, delete_prepare_go,
    delete_prepare_instance, deleteInstanceId, alookup, h0, delete_field_loop, get_relations,
    concatMap, delete_action_create_write_request_elements, delete_base_write_request_elements,
    merge_write_request_elements, info_union, info_insert, sortEventsDesc, insertEventDesc,
    delete_action_create_instance_write_request_element, instanceIdOf, leafDeleteElement]

theorem cascade_list_leaf (env : Env) (user_id : Int) (fuel : Nat)
    (tmOf : FullQualifiedId → Model) :
    ∀ (qs : List FullQualifiedId) (addl : List WriteRequestElement),
    (∀ q ∈ qs, alookup (q.collection ++ ".delete") env.actions_map = some (tmOf q) ∧
        (tmOf q).get_relation_fields = []) →
    cascade_list env (delete_nested env user_id (fuel + 1)) qs addl
      = Except.ok (addl ++ qs.map (fun q => leafDeleteElement user_id (tmOf q).collection q.id)) := by
  intro qs
  induction qs with
  | nil => intro addl _; simp [cascade_list]
  | cons q qs' ih =>
      intro addl h
      have hq := h q (List.mem_cons_self q qs')
      have hq' : ∀ z ∈ qs', alookup (z.collection ++ ".delete") env.actions_map = some (tmOf z) ∧
          (tmOf z).get_relation_fields = [] := fun z hz => h z (List.mem_cons_of_mem q hz)
      simp only [cascade_list, hq.1]
      simp only [delete_nested_leaf env user_id fuel (tmOf q) q.id hq.2]
      rw [ih (addl ++ [leafDeleteElement user_id (tmOf q).collection q.id]) hq']
      simp

theorem cascade_list_missing (env : Env) (user_id : Int) (fuel : Nat)
    (tmOf : FullQualifiedId → Model) :
    ∀ (qpre : List FullQualifiedId) (q : FullQualifiedId) (qpost : List FullQualifiedId)
      (addl : List WriteRequestElement),
    (∀ q' ∈ qpre, alookup (q'.collection ++ ".delete") env.actions_map = some (tmOf q') ∧
        (tmOf q').get_relation_fields = []) →
    alookup (q.collection ++ ".delete") env.actions_map = none →
    cascade_list env (delete_nested env user_id (fuel + 1)) (qpre ++ q :: qpost) addl
      = Except.error (ActionErr.cascadeNotFound q.collection) := by
  intro qpre
  induction qpre with
  | nil =>
      intro q qpost addl _ hq
      simp [cascade_list, hq]
  | cons z qpre' ih =>
      intro q qpost addl h hq
      have hz := h z (List.mem_cons_self z qpre')
      have h' : ∀ z' ∈ qpre', alookup (z'.collection ++ ".delete") env.actions_map = some (tmOf z') ∧
          (tmOf z').get_relation_fields = [] := fun z' hz' => h z' (List.mem_cons_of_mem z hz')
      rw [List.cons_append]
      simp only [cascade_list, hz.1]
      simp only [delete_nested_leaf env user_id fuel (tmOf z) z.id hz.2]
      exact ih q qpost (addl ++ [leafDeleteElement user_id (tmOf z).collection z.id]) h' hq

theorem countDeletes_append (a b : List Event) :
    countDeletes (a ++ b) = countDeletes a + countDeletes b := by
  simp [countDeletes, List.filter_append]

theorem countDeletes_concatMap_leaf (user_id : Int) (tmOf : FullQualifiedId → Model) :
    ∀ qs : List FullQualifiedId,
    countDeletes (concatMap (fun w => w.events)
        (qs.map (fun q => leafDeleteElement user_id (tmOf q).collection q.id))) = qs.length := by
  intro qs
  induction qs with
  | nil => simp [concatMap, countDeletes]
  | cons q qs' ih =>
      simp only [List.map_cons, concatMap, countDeletes_append]
      rw [ih]
      simp [leafDeleteElement, countDeletes, Nat.add_comm]

theorem countDeletes_relation_elements (user_id : Int) :
    ∀ rels : List RelationMutation,
    countDeletes (concatMap (fun w => w.events)
        (rels.map (relation_write_request_element user_id))) = 0 := by
  intro rels
  induction rels with
  | nil => simp [concatMap, countDeletes]
  | cons m rest ih =>
      simp only [List.map_cons, concatMap, countDeletes_append]
      rw [ih]
      simp [relation_write_request_element, countDeletes]

theorem delete_field_loop_inert_all (env : Env)
    (nested : Model → List Instance → Except ActionErr (List WriteRequestElement))
    (model : Model) (instId : Int) (obj : Instance)
    (hdb : alookup (⟨model.collection, instId⟩ : FullQualifiedId) env.db = some obj)
    (fs : List (String × Field)) (inst : Instance) (rf : List (String × Field))
    (addl : List WriteRequestElement)
    (h : ∀ p ∈ fs, deleteInert obj p) :
    delete_field_loop env nested model instId fs inst rf addl
      = Except.ok (setNullApply fs inst, rf ++ setNullFields fs, addl) := by
  have hp := delete_field_loop_inert_walk env nested model instId obj hdb fs [] inst rf addl h
  rw [List.append_nil] at hp
  rw [hp]
  rfl

/-- **C3.** For every delete batch of one instance whose model has a
non-structured CASCADE relation field whose stored value names N targets (a
non-list value counting as one, generics.py:246-254), with every other
relation field inert: if every target's collection has a registered delete
action whose model cascades no further, the batch succeeds with one merged
element containing exactly N+1 delete events; if some target's collection
has no registered delete action (the earlier targets being registered
leaves), the batch fails with the fatal configuration error naming that
collection (generics.py:256-272). -/
theorem delete_cascade_event_count (env : Env) (user_id : Int) (fuel : Nat) (model : Model)
    (inst : Instance) (iid : Int) (obj : Instance) (pre post : List (String × Field))
    (cfn : String) (cf : Field)
    (hid : alookup "id" inst = some (Value.int iid))
    (hdb : alookup (⟨model.collection, iid⟩ : FullQualifiedId) env.db = some obj)
    (hfields : model.get_relation_fields = pre ++ (cfn, cf) :: post)
    (hpre : ∀ p ∈ pre, deleteInert obj p)
    (hpost : ∀ p ∈ post, deleteInert obj p)
    (hskip : structuredSkip cf = false)
    (hcasc : cf.on_delete = OnDelete.CASCADE) :
    (∀ tmOf : FullQualifiedId → Model,
      (∀ q ∈ cascadeFqids cf (alookup cfn obj),
          alookup (q.collection ++ ".delete") env.actions_map = some (tmOf q) ∧
          (tmOf q).get_relation_fields = []) →
      ∃ w, delete_perform env user_id (fuel + 1) model [inst] = Except.ok [w] ∧
        countDeletes w.events = (cascadeFqids cf (alookup cfn obj)).length + 1) ∧
    (∀ (tmOf : FullQualifiedId → Model) (qpre : List FullQualifiedId)
        (q : FullQualifiedId) (qpost : List FullQualifiedId),
      cascadeFqids cf (alookup cfn obj) = qpre ++ q :: qpost →
      (∀ q' ∈ qpre, alookup (q'.collection ++ ".delete") env.actions_map = some (tmOf q') ∧
          (tmOf q').get_relation_fields = []) →
      alookup (q.collection ++ ".delete") env.actions_map = none →
      delete_perform env user_id (fuel + 1) model [inst]
        = Except.error (ActionErr.cascadeNotFound q.collection)) := by
  have hdid : deleteInstanceId inst = Except.ok iid := by simp [deleteInstanceId, hid]
  constructor
  · intro tmOf hreg
    have hloop : delete_field_loop env (delete_nested env user_id (fuel + 1)) model iid
        model.get_relation_fields inst [] []
        = Except.ok (setNullApply post (setNullApply pre inst),
            ([] ++ setNullFields pre) ++ setNullFields post,
            (cascadeFqids cf (alookup cfn obj)).map
              (fun q => leafDeleteElement user_id (tmOf q).collection q.id)) := by
      rw [hfields]
      rw [delete_field_loop_inert_walk env (delete_nested env user_id (fuel + 1)) model iid
        obj hdb pre ((cfn, cf) :: post) inst [] [] hpre]
      simp only [delete_field_loop, hskip, Bool.false_eq_true, if_false, reduceIte, hcasc]
      simp only [database_get_single env.db ⟨model.collection, iid⟩ obj cfn true hdb]
      simp only [alookup_restrict1]
      simp only [cascade_list_leaf env user_id fuel tmOf (cascadeFqids cf (alookup cfn obj)) [] hreg]
      rw [delete_field_loop_inert_all env (delete_nested env user_id (fuel + 1)) model iid obj
        hdb post (setNullApply pre inst) ([] ++ setNullFields pre) _ hpost]
      simp
    have hperf : delete_perform env user_id (fuel + 1) model [inst]
        = Except.ok (delete_action_create_write_request_elements model user_id
            ((cascadeFqids cf (alookup cfn obj)).map
              (fun q => leafDeleteElement user_id (tmOf q).collection q.id))
            [{ instance_ := setNullApply post (setNullApply pre inst),
               relations := get_relations env model iid
                 (setNullApply post (setNullApply pre inst))
                 (([] ++ setNullFields pre) ++ setNullFields post) false }]) := by
      simp only [delete_perform, delete_perform_body, delete_action_prepare_dataset,
        delete_prepare_go, delete_prepare_instance, hdid, hloop]
    have hbase : countDeletes (concatMap (fun w => w.events)
        (delete_base_write_request_elements model user_id
          [{ instance_ := setNullApply post (setNullApply pre inst),
             relations := get_relations env model iid
               (setNullApply post (setNullApply pre inst))
               (([] ++ setNullFields pre) ++ setNullFields post) false }])) = 1 := by
      simp only [delete_base_write_request_elements, concatMap, List.append_eq,
        List.append_nil]
      rw [countDeletes_append, countDeletes_relation_elements]
      simp [delete_action_create_instance_write_request_element, countDeletes]
    refine ⟨{ merge_write_request_elements
        (((cascadeFqids cf (alookup cfn obj)).map
            (fun q => leafDeleteElement user_id (tmOf q).collection q.id))
          ++ delete_base_write_request_elements model user_id
            [{ instance_ := setNullApply post (setNullApply pre inst),
               relations := get_relations env model iid
                 (setNullApply post (setNullApply pre inst))
                 (([] ++ setNullFields pre) ++ setNullFields post) false }]) with
        events := sortEventsDesc (merge_write_request_elements
          (((cascadeFqids cf (alookup cfn obj)).map
              (fun q => leafDeleteElement user_id (tmOf q).collection q.id))
            ++ delete_base_write_request_elements model user_id
              [{ instance_ := setNullApply post (setNullApply pre inst),
                 relations := get_relations env model iid
                   (setNullApply post (setNullApply pre inst))
                   (([] ++ setNullFields pre) ++ setNullFields post) false }])).events }, ?_, ?_⟩
    · rw [hperf]
      rfl
    · show countDeletes (sortEventsDesc (merge_write_request_elements
          (((cascadeFqids cf (alookup cfn obj)).map
              (fun q => leafDeleteElement user_id (tmOf q).collection q.id))
            ++ delete_base_write_request_elements model user_id
              [{ instance_ := setNullApply post (setNullApply pre inst),
                 relations := get_relations env model iid
                   (setNullApply post (setNullApply pre inst))
                   (([] ++ setNullFields pre) ++ setNullFields post) false }])).events)
          = (cascadeFqids cf (alookup cfn obj)).length + 1
      rw [countDeletes_sort]
      show countDeletes (concatMap (fun w => w.events)
          (((cascadeFqids cf (alookup cfn obj)).map
              (fun q => leafDeleteElement user_id (tmOf q).collection q.id))
            ++ delete_base_write_request_elements model user_id
              [{ instance_ := setNullApply post (setNullApply pre inst),
                 relations := get_relations env model iid
                   (setNullApply post (setNullApply pre inst))
                   (([] ++ setNullFields pre) ++ setNullFields post) false }]))
          = (cascadeFqids cf (alookup cfn obj)).length + 1
      rw [concatMap_append, countDeletes_append,
        countDeletes_concatMap_leaf user_id tmOf (cascadeFqids cf (alookup cfn obj)), hbase]
  · intro tmOf qpre q qpost hsplit hqpre hq
    have hloopB : delete_field_loop env (delete_nested env user_id (fuel + 1)) model iid
        model.get_relation_fields inst [] []
        = Except.error (ActionErr.cascadeNotFound q.collection) := by
      rw [hfields]
      rw [delete_field_loop_inert_walk env (delete_nested env user_id (fuel + 1)) model iid
        obj hdb pre ((cfn, cf) :: post) inst [] [] hpre]
      simp only [delete_field_loop, hskip, Bool.false_eq_true, if_false, reduceIte, hcasc]
      simp only [database_get_single env.db ⟨model.collection, iid⟩ obj cfn true hdb]
      simp only [alookup_restrict1]
      rw [hsplit]
      simp only [cascade_list_missing env user_id fuel tmOf qpre q qpost [] hqpre hq]
    simp only [delete_perform, delete_perform_body, delete_action_prepare_dataset,
      delete_prepare_go, delete_prepare_instance, hdid, hloopB]

def fldW3 : Field :=
  { «to» := ["t"], isGeneric := false, on_delete := OnDelete.CASCADE,
    structured_relation := none, structured_tag := none, default := none,
    related_name := "m_id", isRelationField := true }

def modelW3t : Model := { collection := "t", fields := [] }

def modelW3 : Model := { collection := "m", fields := [("casc", fldW3)] }

def objW3 : Instance := [("casc", Value.list [Value.int 10, Value.int 11])]

def envW3 : Env :=
  { db := [(⟨"m", 1⟩, objW3)]
  , actions_map := [("t.delete", modelW3t)]
  , reserveStart := fun _ => 1 }

def instW3 : Instance := [("id", Value.int 1)]

/-- Witness for C3: cascading the delete of one object over a stored list of
two targets yields one merged element with exactly three delete events. -/
theorem delete_cascade_event_count_witness :
    ∃ w, delete_perform envW3 5 (0 + 1) modelW3 [instW3] = Except.ok [w] ∧
      countDeletes w.events = (cascadeFqids fldW3 (alookup "casc" objW3)).length + 1 :=
  (delete_cascade_event_count envW3 5 0 modelW3 instW3 1 objW3 [] [] "casc" fldW3
    rfl rfl rfl
    (fun p hp => absurd hp (List.not_mem_nil p))
    (fun p hp => absurd hp (List.not_mem_nil p))
    rfl rfl).1 (fun _ => modelW3t)
    (by
      intro q hq
      fin_cases hq <;> exact ⟨rfl, rfl⟩)

/-! ## Merged delete write request: one element, updates before deletes (C1) -/

/-- All events of a write-request element are update or delete events — the
only kinds a delete batch can produce. -/
def eventsUD (w : WriteRequestElement) : Prop :=
  ∀ e ∈ w.events, e.type = "update" ∨ e.type = "delete"

theorem mem_concatMap {α β : Type} (f : α → List β) :
    ∀ (l : List α) (b : β), b ∈ concatMap f l → ∃ a ∈ l, b ∈ f a := by
  intro l
  induction l with
  | nil => intro b hb; exact absurd hb (List.not_mem_nil b)
  | cons x xs ih =>
      intro b hb
      rcases List.mem_append.mp hb with hx | hxs
      · exact ⟨x, List.mem_cons_self x xs, hx⟩
      · obtain ⟨a, ha, hfa⟩ := ih b hxs
        exact ⟨a, List.mem_cons_of_mem x ha, hfa⟩

theorem eventsUD_delete_instance (model : Model) (user_id : Int) (e : InstanceElement) :
    eventsUD (delete_action_create_instance_write_request_element model user_id e) := by
  intro ev hev
  rcases List.mem_singleton.mp hev with rfl
  exact Or.inr rfl

theorem eventsUD_relation (user_id : Int) (m : RelationMutation) :
    eventsUD (relation_write_request_element user_id m) := by
  intro ev hev
  rcases List.mem_singleton.mp hev with rfl
  exact Or.inl rfl

theorem eventsUD_base (model : Model) (user_id : Int) (data : List InstanceElement) :
    ∀ w ∈ delete_base_write_request_elements model user_id data, eventsUD w := by
  intro w hw
  obtain ⟨e, _, hwe⟩ := mem_concatMap _ data w hw
  rcases List.mem_cons.mp hwe with rfl | hrel
  · exact eventsUD_delete_instance model user_id e
  · obtain ⟨m, _, rfl⟩ := List.mem_map.mp hrel
    exact eventsUD_relation user_id m

theorem cascade_list_UD (env : Env)
    (nested : Model → List Instance → Except ActionErr (List WriteRequestElement))
    (hn : ∀ m p wrs, nested m p = Except.ok wrs → ∀ w ∈ wrs, eventsUD w) :
    ∀ (qs : List FullQualifiedId) (addl addl' : List WriteRequestElement),
    (∀ w ∈ addl, eventsUD w) →
    cascade_list env nested qs addl = Except.ok addl' →
    ∀ w ∈ addl', eventsUD w := by
  intro qs
  induction qs with
  | nil =>
      intro addl addl' haddl h
      simp only [cascade_list] at h
      exact (Except.ok.inj h) ▸ haddl
  | cons q qs' ih =>
      intro addl addl' haddl h
      simp only [cascade_list] at h
      cases hlk : alookup (q.collection ++ ".delete") env.actions_map with
      | none => rw [hlk] at h; exact Except.noConfusion h
      | some tm =>
          rw [hlk] at h
          cases hns : nested tm [[("id", Value.int q.id)]] with
          | error e => simp only [hns] at h; exact Except.noConfusion h
          | ok wrs =>
              simp only [hns] at h
              refine ih (addl ++ wrs) addl' ?_ h
              intro w hw
              rcases List.mem_append.mp hw with hw1 | hw2
              · exact haddl w hw1
              · exact hn tm [[("id", Value.int q.id)]] wrs hns w hw2

theorem delete_field_loop_UD (env : Env)
    (nested : Model → List Instance → Except ActionErr (List WriteRequestElement))
    (model : Model) (instId : Int)
    (hn : ∀ m p wrs, nested m p = Except.ok wrs → ∀ w ∈ wrs, eventsUD w) :
    ∀ (fs : List (String × Field)) (inst : Instance) (rf : List (String × Field))
      (addl : List WriteRequestElement)
      (r : Instance × List (String × Field) × List WriteRequestElement),
    (∀ w ∈ addl, eventsUD w) →
    delete_field_loop env nested model instId fs inst rf addl = Except.ok r →
    ∀ w ∈ r.2.2, eventsUD w := by
  intro fs
  induction fs with
  | nil =>
      intro inst rf addl r haddl h
      simp only [delete_field_loop] at h
      rw [← Except.ok.inj h]
      exact haddl
  | cons p rest ih =>
      intro inst rf addl r haddl h
      obtain ⟨fn0, f0⟩ := p
      by_cases hsk : structuredSkip f0 = true
      · simp only [delete_field_loop, hsk, if_true, reduceIte] at h
        exact ih inst rf addl r haddl h
      · simp only [delete_field_loop, hsk, Bool.false_eq_true, if_false, reduceIte] at h
        cases hod0 : f0.on_delete with
        | SET_NULL =>
            rw [hod0] at h
            exact ih _ _ _ r haddl h
        | PROTECT =>
            rw [hod0] at h
            cases hdbg : database_get env.db ⟨model.collection, instId⟩ [fn0] true with
            | error e => rw [hdbg] at h; exact Except.noConfusion h
            | ok dbi =>
                simp only [hdbg] at h
                by_cases ht : truthy (pyGet dbi fn0) = true
                · rw [if_pos ht] at h; exact Except.noConfusion h
                · rw [if_neg ht] at h
                  exact ih _ _ _ r haddl h
        | CASCADE =>
            rw [hod0] at h
            cases hdbg : database_get env.db ⟨model.collection, instId⟩ [fn0] true with
            | error e => rw [hdbg] at h; exact Except.noConfusion h
            | ok dbi =>
                simp only [hdbg] at h
                cases hcl : cascade_list env nested (cascadeFqids f0 (alookup fn0 dbi)) addl with
                | error e => rw [hcl] at h; exact Except.noConfusion h
                | ok addl2 =>
                    rw [hcl] at h
                    exact ih _ _ _ r
                      (cascade_list_UD env nested hn _ addl addl2 haddl hcl) h

theorem delete_prepare_instance_UD (env : Env)
    (nested : Model → List Instance → Except ActionErr (List WriteRequestElement))
    (model : Model)
    (hn : ∀ m p wrs, nested m p = Except.ok wrs → ∀ w ∈ wrs, eventsUD w)
    (inst : Instance) (addl : List WriteRequestElement)
    (r : InstanceElement × List WriteRequestElement)
    (haddl : ∀ w ∈ addl, eventsUD w)
    (h : delete_prepare_instance env nested model inst addl = Except.ok r) :
    ∀ w ∈ r.2, eventsUD w := by
  cases hid : deleteInstanceId inst with
  | error e => simp only [delete_prepare_instance, hid] at h; exact Except.noConfusion h
  | ok instId =>
      simp only [delete_prepare_instance, hid] at h
      cases hloop : delete_field_loop env nested model instId model.get_relation_fields
          inst [] addl with
      | error e => simp only [hloop] at h; exact Except.noConfusion h
      | ok lres =>
          simp only [hloop, Except.ok.injEq] at h
          have := delete_field_loop_UD env nested model instId hn
            model.get_relation_fields inst [] addl lres haddl hloop
          rw [← h]
          exact this

theorem delete_prepare_go_UD (env : Env)
    (nested : Model → List Instance → Except ActionErr (List WriteRequestElement))
    (model : Model)
    (hn : ∀ m p wrs, nested m p = Except.ok wrs → ∀ w ∈ wrs, eventsUD w) :
    ∀ (payload : List Instance) (addl : List WriteRequestElement)
      (r : List InstanceElement × List WriteRequestElement),
    (∀ w ∈ addl, eventsUD w) →
    delete_prepare_go env nested model payload addl = Except.ok r →
    ∀ w ∈ r.2, eventsUD w := by
  intro payload
  induction payload with
  | nil =>
      intro addl r haddl h
      simp only [delete_prepare_go, Except.ok.injEq] at h
      rw [← h]
      exact haddl
  | cons i rest ih =>
      intro addl r haddl h
      simp only [delete_prepare_go] at h
      cases hpi : delete_prepare_instance env nested model i addl with
      | error e => rw [hpi] at h; exact Except.noConfusion h
      | ok r0 =>
          rw [hpi] at h
          cases hgo : delete_prepare_go env nested model rest r0.2 with
          | error e => simp only [hgo] at h; exact Except.noConfusion h
          | ok r2 =>
              simp only [hgo, Except.ok.injEq] at h
              have h0 := delete_prepare_instance_UD env nested model hn i addl r0 haddl hpi
              have h2 := ih r0.2 r2 h0 hgo
              rw [← h]
              exact h2

theorem delete_nested_UD (env : Env) (user_id : Int) :
    ∀ (fuel : Nat) (m : Model) (p : List Instance) (wrs : List WriteRequestElement),
    delete_nested env user_id fuel m p = Except.ok wrs → ∀ w ∈ wrs, eventsUD w := by
  intro fuel
  induction fuel with
  | zero => intro m p wrs h; exact Except.noConfusion h
  | succ g ih =>
      intro m p wrs h
      simp only [delete_nested, delete_perform_body] at h
      cases hprep : delete_action_prepare_dataset env (delete_nested env user_id g) m p with
      | error e => rw [hprep] at h; exact Except.noConfusion h
      | ok r =>
          simp only [hprep, Except.ok.injEq] at h
          simp only [delete_action_prepare_dataset] at hprep
          have haddl := delete_prepare_go_UD env (delete_nested env user_id g) m ih p [] r
            (fun w hw => absurd hw (List.not_mem_nil w)) hprep
          intro w hw
          rw [← h] at hw
          simp only [delete_action_create_write_request_elements] at hw
          rcases List.mem_singleton.mp hw with rfl
          intro e he
          have he' : e ∈ (merge_write_request_elements
              (r.2 ++ delete_base_write_request_elements m user_id r.1)).events :=
            ((sortEventsDesc_perm _).mem_iff).mp he
          obtain ⟨w', hw', hew'⟩ := mem_concatMap _ _ e he'
          rcases List.mem_append.mp hw' with hw1 | hw2
          · exact haddl w' hw1 e hew'
          · exact eventsUD_base m user_id r.1 w' hw2 e hew'

/-- **C1.** For every delete batch that succeeds, the write-request assembler
returns exactly one merged write-request element, and its event list is the
stable partition of the merged arrival list (cascade buffer elements followed
by the per-instance elements, generics.py:294-307): all non-delete events —
and a delete pipeline only ever produces update and delete events, never
create — precede all delete events, events of equal kind keeping their
arrival order (`List.filter` preserves relative order). -/
theorem delete_write_request_merged_and_ordered (env : Env) (user_id : Int) (fuel : Nat)
    (model : Model) (payload : List Instance) (wrs : List WriteRequestElement)
    (hok : delete_perform env user_id fuel model payload = Except.ok wrs) :
    ∃ (data : List InstanceElement) (addl : List WriteRequestElement)
      (w : WriteRequestElement),
      delete_action_prepare_dataset env (delete_nested env user_id fuel) model payload
        = Except.ok (data, addl) ∧
      wrs = [w] ∧
      (∀ e ∈ (merge_write_request_elements
          (addl ++ delete_base_write_request_elements model user_id data)).events,
        e.type = "update" ∨ e.type = "delete") ∧
      w.events = (merge_write_request_elements
          (addl ++ delete_base_write_request_elements model user_id data)).events.filter
            (fun e => !(e.type == "delete"))
        ++ (merge_write_request_elements
          (addl ++ delete_base_write_request_elements model user_id data)).events.filter
            (fun e => e.type == "delete") := by
  unfold delete_perform delete_perform_body at hok
  cases hprep : delete_action_prepare_dataset env (delete_nested env user_id fuel)
      model payload with
  | error e => rw [hprep] at hok; exact Except.noConfusion hok
  | ok r =>
      simp only [hprep, Except.ok.injEq] at hok
      have hUD : ∀ e ∈ (merge_write_request_elements
          (r.2 ++ delete_base_write_request_elements model user_id r.1)).events,
          e.type = "update" ∨ e.type = "delete" := by
        intro e he
        obtain ⟨w', hw', hew'⟩ := mem_concatMap _ _ e he
        rcases List.mem_append.mp hw' with hw1 | hw2
        · have hprep' := hprep
          simp only [delete_action_prepare_dataset] at hprep'
          exact delete_prepare_go_UD env (delete_nested env user_id fuel) model
            (delete_nested_UD env user_id fuel) payload [] r
            (fun w hw => absurd hw (List.not_mem_nil w)) hprep' w' hw1 e hew'
        · exact eventsUD_base model user_id r.1 w' hw2 e hew'
      refine ⟨r.1, r.2, { merge_write_request_elements
          (r.2 ++ delete_base_write_request_elements model user_id r.1) with
          events := sortEventsDesc (merge_write_request_elements
            (r.2 ++ delete_base_write_request_elements model user_id r.1)).events },
        rfl, ?_, hUD, ?_⟩
      · rw [← hok]
        rfl
      · exact sortEventsDesc_eq_filter _ hUD

def fldW1 : Field :=
  { «to» := ["x"], isGeneric := false, on_delete := OnDelete.SET_NULL,
    structured_relation := none, structured_tag := none, default := none,
    related_name := "m_id", isRelationField := true }

def modelW1 : Model := { collection := "m", fields := [("xs", fldW1)] }

def envW1 : Env :=
  { db := [(⟨"m", 2⟩, [("xs", Value.list [Value.int 7, Value.int 8])])]
  , actions_map := [], reserveStart := fun _ => 1 }

def wrsW1 : List WriteRequestElement :=
  [{ events :=
      [{ type := "update", fqid := ⟨"x", 7⟩, fields := some [("m_id", Value.int 2)] },
       { type := "update", fqid := ⟨"x", 8⟩, fields := some [("m_id", Value.int 2)] },
       { type := "delete", fqid := ⟨"m", 2⟩, fields := none }]
   , information := [(⟨"m", 2⟩, ["Object deleted"]),
                     (⟨"x", 7⟩, ["Object updated"]),
                     (⟨"x", 8⟩, ["Object updated"])]
   , user_id := 5 }]

/-- Witness for C1: a delete whose SET_NULL clearing makes two reverse update
events; the merged single element carries them before the delete event. -/
theorem delete_write_request_merged_and_ordered_witness :
    ∃ (data : List InstanceElement) (addl : List WriteRequestElement)
      (w : WriteRequestElement),
      delete_action_prepare_dataset envW1 (delete_nested envW1 5 0) modelW1
          [[("id", Value.int 2)]]
        = Except.ok (data, addl) ∧
      wrsW1 = [w] ∧
      (∀ e ∈ (merge_write_request_elements
          (addl ++ delete_base_write_request_elements modelW1 5 data)).events,
        e.type = "update" ∨ e.type = "delete") ∧
      w.events = (merge_write_request_elements
          (addl ++ delete_base_write_request_elements modelW1 5 data)).events.filter
            (fun e => !(e.type == "delete"))
        ++ (merge_write_request_elements
          (addl ++ delete_base_write_request_elements modelW1 5 data)).events.filter
            (fun e => e.type == "delete") :=
  delete_write_request_merged_and_ordered envW1 5 0 modelW1 [[("id", Value.int 2)]]
    wrsW1 rfl

end OSB
